import Mathlib

/-
Verification development for the slack-stealth-mcp core: a shallow embedding of
the rate limiter, request pipeline, entity caches, pagination walker, workspace
manager and unread-reconciliation engine, with theorems checking the design
document's claims against the embedded code.

Sources embedded:
  src/slack_stealth_mcp/slack_client.py   (RateLimiter, SlackClient._request,
      list_conversations, get_user_info, mark_conversation, get_last_read)
  src/slack_stealth_mcp/types.py          (SlackUser, SlackMessage, SlackConversation)
  packages/python/src/slack_stealth_mcp/workspace.py (WorkspaceManager.reload_config)
  packages/python/src/slack_stealth_mcp/tools/get_unread.py (_get_unread_for_workspace)
-/

set_option autoImplicit false

/-! ## Association-list helpers

Python dicts are modelled as association lists with overwrite-in-place
assignment (`aset`), preserving insertion order like CPython dicts. -/

/-- Lookup in an association list (first matching key wins). -/
def alookup {α : Type} : List (String × α) → String → Option α
  | [], _ => none
  | (k, v) :: rest, key => if k = key then some v else alookup rest key

/-- Dict assignment `d[k] = v`: overwrite the existing entry in place, else append. -/
def aset {α : Type} : List (String × α) → String → α → List (String × α)
  | [], k, v => [(k, v)]
  | (k', v') :: rest, k, v =>
    if k' = k then (k', v) :: rest else (k', v') :: aset rest k v

/-- Python set insertion (`s.add(x)`), modelled as order-preserving dedup append. -/
def sadd (s : List String) (x : String) : List String :=
  if x ∈ s then s else s ++ [x]

/-- Code-point comparison of characters, written over `Char.toNat` so that
concrete terms reduce in the kernel. -/
def charLtB (a b : Char) : Bool := decide (a.toNat < b.toNat)

/-- Code-point equality of characters. -/
def charEqB (a b : Char) : Bool := decide (a.toNat = b.toNat)

/-- Lexicographic code-point comparison of character lists: CPython's `<` on
str. -/
def charListLtB : List Char → List Char → Bool
  | [], [] => false
  | [], _ :: _ => true
  | _ :: _, [] => false
  | a :: as, b :: bs =>
    if charLtB a b then true
    else if charLtB b a then false
    else charListLtB as bs

/-- Python string comparison `a < b` (lexicographic on code points). -/
def pyStrLt (a b : String) : Bool := charListLtB a.data b.data

/-- Character-list prefix test. -/
def charsPrefix : List Char → List Char → Bool
  | [], _ => true
  | _ :: _, [] => false
  | a :: as, b :: bs => if charEqB a b then charsPrefix as bs else false

/-- Python `s.startswith(pre)`. -/
def pyStartsWith (s pre : String) : Bool := charsPrefix pre.data s.data

/-- Python truthiness of an optional string: `None` and `""` are falsy. -/
def strTruthy : Option String → Bool
  | none => false
  | some s => s != ""

/-- Python `x and x > 0` on an optional count field: truthy and positive. -/
def posCount : Option Nat → Bool
  | none => false
  | some n => decide (0 < n)

/-! ## Data model (types.py) -/

/-- types.py: SlackUser. -/
structure SlackUser where
  id : String
  name : String
  real_name : Option String
  display_name : Option String
  is_bot : Bool
deriving DecidableEq, Repr

/-- SlackUser.display: display name, else real name, else canonical name
(`self.display_name or self.real_name or self.name`, Python `or` on falsy ""). -/
def SlackUser.display (u : SlackUser) : String :=
  match u.display_name with
  | some d => if d != "" then d else
      match u.real_name with
      | some r => if r != "" then r else u.name
      | none => u.name
  | none =>
      match u.real_name with
      | some r => if r != "" then r else u.name
      | none => u.name

/-- types.py: SlackMessage. The reaction/attachment/block metadata lists are
never read by the code under verification and are omitted. The `channel` field
is carried by search hits and read by the mentions loop of get_unread.py
(`msg.channel`); the message type of the packages tree that declares it is
absent from the sources, so the field is modelled from the spec's search-result
description (a search hit knows its mentioning conversation). -/
structure SlackMessage where
  ts : String
  text : String
  user : Option String
  thread_ts : Option String
  reply_count : Option Nat
  channel : String
deriving DecidableEq, Repr

/-- SlackMessage.is_thread_reply: thread_ts set and different from own ts. -/
def SlackMessage.is_thread_reply (m : SlackMessage) : Bool :=
  match m.thread_ts with
  | none => false
  | some t => t != m.ts

/-- SlackMessage.is_thread_parent: thread_ts equals own ts and reply_count set. -/
def SlackMessage.is_thread_parent (m : SlackMessage) : Bool :=
  match m.thread_ts with
  | none => false
  | some t => t == m.ts && m.reply_count.isSome

/-- types.py: SlackConversation. -/
structure SlackConversation where
  id : String
  name : Option String
  is_channel : Bool
  is_group : Bool
  is_im : Bool
  is_mpim : Bool
  is_private : Bool
  is_archived : Bool
  is_member : Bool
  user : Option String
  last_read : Option String
  unread_count : Option Nat
  unread_count_display : Option Nat
deriving DecidableEq, Repr

/-- SlackConversation.display_name: name if truthy, else "DM:<user>" for an IM
with a user, else the id. -/
def SlackConversation.display_name (c : SlackConversation) : String :=
  match c.name with
  | some n => if n != "" then n else
      match c.user with
      | some u => if c.is_im && (u != "") then "DM:" ++ u else c.id
      | none => c.id
  | none =>
      match c.user with
      | some u => if c.is_im && (u != "") then "DM:" ++ u else c.id
      | none => c.id

/-! ## Rate Controller (slack_client.py, class RateLimiter)

Time is modelled as exact rational seconds on a monotonic clock; asyncio.sleep
is assumed exact, so after a positive wait the stamped `time.monotonic()` equals
`now + wait_time`. The source attribute `_backoff` is the field
`backoff_factor` (Lean forbids a field and a method sharing the name). -/

structure RateLimiter where
  interval : ℚ
  last_request : ℚ
  backoff_factor : ℚ
deriving DecidableEq, Repr

/-- RateLimiter.__init__: interval = 60 / requests_per_minute, last request
time 0, backoff multiplier 1. -/
def RateLimiter.init (requests_per_minute : ℚ) : RateLimiter :=
  { interval := 60 / requests_per_minute, last_request := 0, backoff_factor := 1 }

/-- RateLimiter.acquire at monotonic time `now`: wait out the remainder of the
scaled interval if positive, then stamp the current time as last_request. -/
def RateLimiter.acquire (st : RateLimiter) (now : ℚ) : RateLimiter :=
  let wait_time := st.last_request + st.interval * st.backoff_factor - now
  if 0 < wait_time then
    { st with last_request := now + wait_time }
  else
    { st with last_request := now }

/-- RateLimiter.backoff: double the multiplier, capped at 60. -/
def RateLimiter.backoff (st : RateLimiter) : RateLimiter :=
  { st with backoff_factor := min (st.backoff_factor * 2) 60 }

/-- RateLimiter.reset_backoff: restore the multiplier to 1. -/
def RateLimiter.reset_backoff (st : RateLimiter) : RateLimiter :=
  { st with backoff_factor := 1 }

/-! ## Request Pipeline (slack_client.py, SlackClient._request)

One attempt is either a transport failure that httpx does not surface as an
HTTPStatusError (connection failure, timeout, malformed body) or a parsed
response: status code, Retry-After header value (already parsed to seconds,
`none` when the header is absent), the payload's ok flag and optional error
code. `_request` is run against a script listing the attempt outcomes the
remote produces in order; the recursion consumes one script entry per attempt,
so a script that runs out while the call is still retrying is reported as
`pending` (the source loops unboundedly there). -/

structure HttpResponse where
  status : Nat
  retryAfter : Option Nat
  ok : Bool
  error : Option String
deriving DecidableEq, Repr

inductive Attempt where
  | transportFailure
  | response (r : HttpResponse)
deriving DecidableEq, Repr

/-- Observable side effects of one _request call, in order: rate-controller
acquire, RateLimiter.backoff(), asyncio.sleep(retry_after), reset_backoff(). -/
inductive ReqEvent where
  | acquire
  | backoffCalled
  | sleep (seconds : Nat)
  | resetCalled
deriving DecidableEq, Repr

/-- The outcome of _request: parsed data returned, a SlackAPIError raised
(classified, carrying the error code string), an uncaught exception other than
httpx.HTTPStatusError propagating raw, or still retrying past the script. -/
inductive ReqOutcome where
  | success
  | apiError (err : String)
  | rawException
  | pending
deriving DecidableEq, Repr

/-- SlackClient._request over a script of attempt outcomes. Mirrors the source:
acquire the limiter, issue the call; a non-HTTPStatusError transport failure
propagates raw (the except clause only catches httpx.HTTPStatusError); a status
of 429 backs off, sleeps Retry-After (default 60) and retries; another error
status raises SlackAPIError("HTTP <status>"); a well-formed payload with
ok=false and error "ratelimited" backs off, sleeps and retries; another soft
error raises SlackAPIError(error or "unknown_error"); success resets backoff. -/
def requestRun : List Attempt → ReqOutcome × List ReqEvent
  | [] => (.pending, [])
  | .transportFailure :: _ => (.rawException, [.acquire])
  | .response r :: rest =>
    if 400 ≤ r.status then
      -- response.raise_for_status() throws httpx.HTTPStatusError
      if r.status = 429 then
        let retry := requestRun rest
        (retry.1, .acquire :: .backoffCalled :: .sleep (r.retryAfter.getD 60) :: retry.2)
      else
        (.apiError ("HTTP " ++ toString r.status), [.acquire])
    else if r.ok = false then
      if r.error.getD "unknown_error" = "ratelimited" then
        let retry := requestRun rest
        (retry.1, .acquire :: .backoffCalled :: .sleep (r.retryAfter.getD 60) :: retry.2)
      else
        (.apiError (r.error.getD "unknown_error"), [.acquire])
    else
      (.success, [.acquire, .resetCalled])

/-- An attempt the pipeline treats as rate-limited: HTTP 429, or a parsed
payload (status below 400) with ok=false naming the "ratelimited" error. -/
def isRateLimitedAttempt : Attempt → Bool
  | .transportFailure => false
  | .response r =>
    (r.status = 429) || (r.status < 400 && r.ok = false && r.error.getD "unknown_error" = "ratelimited")

/-- The server-advised sleep the pipeline performs for a rate-limited attempt:
the Retry-After header, defaulting to 60 seconds when absent. -/
def advisedDelay : Attempt → Nat
  | .transportFailure => 60
  | .response r => r.retryAfter.getD 60

/-- Specification-side classification of the first non-rate-limited attempt
(the refinement target for the amended C4): transport failures other than HTTP
status errors propagate raw; an error status other than 429 and a soft payload
error are classified immediately with no retry; success returns data. -/
def specFinalOutcome : Attempt → ReqOutcome
  | .transportFailure => .rawException
  | .response r =>
    if 400 ≤ r.status then .apiError ("HTTP " ++ toString r.status)
    else if r.ok = false then .apiError (r.error.getD "unknown_error")
    else .success

/-- Specification-side events of the deciding attempt: one acquire, plus
reset_backoff() exactly on success. -/
def specFinalEvents : Attempt → List ReqEvent
  | .transportFailure => [.acquire]
  | .response r =>
    if 400 ≤ r.status then [.acquire]
    else if r.ok = false then [.acquire]
    else [.acquire, .resetCalled]

/-! ## Entity caches (slack_client.py, get_user_info / mark_conversation)

Remote calls are modelled as their scripted results: `Except String α` carries
the SlackAPIError error code on failure. Mutation of a cache is modelled by
returning the updated cache. -/

/-- The users.info payload fields read by get_user_info (user id, name with ""
default, optional real_name, optional profile.display_name, is_bot flag). -/
structure UserPayload where
  id : String
  name : String
  real_name : Option String
  display_name : Option String
  is_bot : Bool
deriving DecidableEq, Repr

/-- SlackClient.get_user_info: return the cached profile when present (no
remote call); otherwise issue one users.info fetch, build the SlackUser and
store it. The Bool reports whether a remote fetch was issued. -/
def get_user_info (users_cache : List (String × SlackUser))
    (fetch : String → Except String UserPayload) (user_id : String) :
    Except String (SlackUser × List (String × SlackUser) × Bool) :=
  match alookup users_cache user_id with
  | some u => .ok (u, users_cache, false)
  | none =>
    match fetch user_id with
    | .error e => .error e
    | .ok p =>
      let user : SlackUser :=
        { id := p.id, name := p.name, real_name := p.real_name,
          display_name := p.display_name, is_bot := p.is_bot }
      .ok (user, aset users_cache user_id user, true)

/-- SlackClient.mark_conversation: issue the conversations.mark request; only
after it returns successfully is the last-read cache entry written. A request
failure propagates before the cache write, leaving the cache unchanged (the
caller keeps the cache it passed in). -/
def mark_conversation (last_read_cache : List (String × String))
    (req : Except String Unit) (channel ts : String) :
    Except String (List (String × String)) :=
  match req with
  | .error e => .error e
  | .ok _ => .ok (aset last_read_cache channel ts)

/-- SlackClient.get_last_read: read the cached last_read timestamp. -/
def get_last_read (last_read_cache : List (String × String)) (channel : String) :
    Option String :=
  alookup last_read_cache channel

/-! ## Pagination Walker (conversations.list)

Modelled from the spec: the paginated `list_conversations` of the packages
tree's slack client is absent from the sources (only its caller
tools/get_unread.py, which passes `max_pages`, and the unbounded twin in
src/slack_stealth_mcp/slack_client.py lines 163-219 survive). The page body —
accumulate the returned channels, populate the conversation cache, populate the
last-read cache for truthy last_read values, read response_metadata.next_cursor
and stop on a falsy cursor — is taken from that surviving twin; the `max_pages`
cutoff is the spec's caller-supplied maximum page count. The server is a
function from the cursor parameter to the page it returns; `visited` is ghost
instrumentation recording the pages fetched, for the statements. -/

structure ListPage where
  channels : List SlackConversation
  next_cursor : Option String
deriving Repr

structure PaginationState where
  conversations : List SlackConversation
  conversations_cache : List (String × SlackConversation)
  last_read_cache : List (String × String)
  visited : List ListPage
deriving Repr

/-- Per-page side effects: append each conversation to the result, store it in
the conversation cache, and record a truthy last_read in the last-read cache. -/
def cachePage (st : PaginationState) (page : ListPage) : PaginationState :=
  { conversations := st.conversations ++ page.channels,
    conversations_cache :=
      page.channels.foldl (fun acc conv => aset acc conv.id conv) st.conversations_cache,
    last_read_cache :=
      page.channels.foldl
        (fun acc conv =>
          match conv.last_read with
          | some lr => if lr != "" then aset acc conv.id lr else acc
          | none => acc)
        st.last_read_cache,
    visited := st.visited ++ [page] }

/-- The cursor walk: fetch the page for the current cursor, apply its side
effects, then continue with the advancing cursor while it is truthy and the
page budget is not exhausted. -/
def list_conversations_walk (server : Option String → ListPage) :
    Nat → Option String → PaginationState → PaginationState
  | 0, _, st => st
  | fuel + 1, cursor, st =>
    let page := server cursor
    let st' := cachePage st page
    if strTruthy page.next_cursor then
      list_conversations_walk server fuel page.next_cursor st'
    else
      st'

/-- A paginated listing call as issued by get_unread.py: start with no cursor
and an empty accumulation state. -/
def list_conversations_paged (server : Option String → ListPage) (max_pages : Nat) :
    PaginationState :=
  list_conversations_walk server max_pages none ⟨[], [], [], []⟩

/-- Specification-side page sequence of one walk: the pages the server serves
for the advancing cursor until one carries a falsy continuation cursor or the
budget runs out. Used to state what the walk visits. -/
def walkPages (server : Option String → ListPage) : Nat → Option String → List ListPage
  | 0, _ => []
  | fuel + 1, cursor =>
    let page := server cursor
    if strTruthy page.next_cursor then page :: walkPages server fuel page.next_cursor
    else [page]

/-! ## Workspace Manager (packages workspace.py, reload_config)

A client instance is given a serial number so that "same object" is statable;
`cfg` is the WorkspaceConfig it was constructed from. `closed` collects the
serials of clients whose close() ran. -/

structure WorkspaceConfig where
  xoxc_token : String
  xoxd_cookie : String
  ws_name : Option String
deriving DecidableEq, Repr

structure Config where
  workspaces : List (String × WorkspaceConfig)
  default_workspace : Option String
deriving DecidableEq, Repr

structure ClientInst where
  serial : Nat
  cfg : WorkspaceConfig
deriving DecidableEq, Repr

structure ManagerState where
  config : Config
  clients : List (String × ClientInst)
  next_serial : Nat
  closed : List Nat
deriving Repr

/-- The removal pass of reload_config: every client whose name is absent from
the new workspace set is closed and deleted from the client table. Returns the
surviving clients, the serials closed, and the removed names, in iteration
order. -/
def removePass (newWs : List (String × WorkspaceConfig)) :
    List (String × ClientInst) → List (String × ClientInst) × List Nat × List String
  | [] => ([], [], [])
  | (name, c) :: rest =>
    let r := removePass newWs rest
    if (alookup newWs name).isSome then
      ((name, c) :: r.1, r.2.1, r.2.2)
    else
      (r.1, c.serial :: r.2.1, name :: r.2.2)

/-- The add/update pass of reload_config, iterating the new workspace set in
order: a name with no client gets a freshly constructed client (added); a name
whose old credential pair (xoxc_token, xoxd_cookie) differs from the new one
has its old client closed and replaced by a fresh client (updated); otherwise
the entry is left untouched. Arguments thread the client table, the serial
allocator and the closed list; returns those plus the added and updated names. -/
def addUpdatePass (oldWs : List (String × WorkspaceConfig)) :
    List (String × WorkspaceConfig) → List (String × ClientInst) → Nat → List Nat →
    List (String × ClientInst) × Nat × List Nat × List String × List String
  | [], clients, serial, closed => (clients, serial, closed, [], [])
  | (name, ws) :: rest, clients, serial, closed =>
    match alookup clients name with
    | none =>
      let r := addUpdatePass oldWs rest (aset clients name ⟨serial, ws⟩) (serial + 1) closed
      (r.1, r.2.1, r.2.2.1, name :: r.2.2.2.1, r.2.2.2.2)
    | some old =>
      match alookup oldWs name with
      | none =>
        -- `elif name in self._config.workspaces` fails: entry left as is
        addUpdatePass oldWs rest clients serial closed
      | some old_ws =>
        if ws.xoxc_token != old_ws.xoxc_token || ws.xoxd_cookie != old_ws.xoxd_cookie then
          let r := addUpdatePass oldWs rest (aset clients name ⟨serial, ws⟩) (serial + 1)
            (closed ++ [old.serial])
          (r.1, r.2.1, r.2.2.1, r.2.2.2.1, name :: r.2.2.2.2)
        else
          addUpdatePass oldWs rest clients serial closed

/-- The structured diff reload_config returns on success. -/
structure ReloadResult where
  ok : Bool
  added : List String
  removed : List String
  updated : List String
  workspaces : List String
  default_workspace : Option String
deriving DecidableEq, Repr

/-- WorkspaceManager.reload_config: re-load the configuration (a load failure
returns ok=false and changes nothing), close and drop clients for removed
tenants, instantiate clients for new tenants, close and reinstantiate clients
whose credential pair changed, leave the rest untouched, store the new config,
and report the added/removed/updated names and resulting workspace list. -/
def reload_config (st : ManagerState) (load : Except String Config) :
    ManagerState × ReloadResult :=
  match load with
  | .error _ =>
    (st, { ok := false, added := [], removed := [], updated := [],
           workspaces := [], default_workspace := none })
  | .ok new_config =>
    let rem := removePass new_config.workspaces st.clients
    let add := addUpdatePass st.config.workspaces new_config.workspaces rem.1
      st.next_serial (st.closed ++ rem.2.1)
    ({ config := new_config, clients := add.1, next_serial := add.2.1,
       closed := add.2.2.1 },
     { ok := true, added := add.2.2.2.1, removed := rem.2.2,
       updated := add.2.2.2.2, workspaces := add.1.map (·.1),
       default_workspace := new_config.default_workspace })

/-! ## Unread Reconciliation Engine (packages tools/get_unread.py)

`_get_unread_for_workspace` is embedded as a pure function over an
`UnreadWorld` scripting the remote responses, returning the structured result
(or the uncaught exception) together with a trace of the API calls issued.
asyncio.gather returns results in argument order and the batches of 15 are
awaited strictly in sequence, so the per-batch loops are modelled as one
sequential pass over the whole list; call interleaving inside a batch is
unspecified and the trace lists probes in list order. Wall-clock message
formatting (`msg.timestamp.strftime`) is not modelled; the formatted entries
keep the raw ts token. -/

/-- The API calls the engine can issue, as recorded in the trace. -/
inductive ApiCall where
  | list_convs (types : String)
  | conv_info (channel : String)
  | history (channel : String) (oldest : Option String) (limit : Nat)
  | prefetch (ids : List String)
  | auth_test
  | search_call (query : String)
deriving DecidableEq, Repr

/-- Scripted remote responses and initial client state for one invocation of
`_get_unread_for_workspace`. `Except String α` models a call that either
returns or raises. `prefetch_ok` scripts whether prefetch_users raises;
`user_directory` backs the users it would resolve. -/
structure UnreadWorld where
  users_cache0 : List (String × SlackUser)
  dm_list : Except String (List SlackConversation)
  channel_list : Except String (List SlackConversation)
  conv_info : String → Except String SlackConversation
  history : String → Option String → Nat → Except String (List SlackMessage)
  user_directory : String → Option SlackUser
  prefetch_ok : Bool
  auth_user_id : Except String (Option String)
  search : Except String (List SlackMessage)

/-- _get_cached_user_name: cached display name, else the truncated id. -/
def get_cached_user_name (users_cache : List (String × SlackUser)) (user_id : String) :
    String :=
  match alookup users_cache user_id with
  | some cached => cached.display
  | none => user_id.take 8 ++ "..."

/-- Modelled from the spec: `prefetch_users(ids)` of the entity cache (the
packages slack client that implements it is absent from the sources). One
batched fetch populates the cache for every identifier not already cached;
already-cached ids are no-ops. -/
def prefetch_users (users_cache : List (String × SlackUser))
    (directory : String → Option SlackUser) (ids : List String) :
    List (String × SlackUser) :=
  ids.foldl
    (fun acc uid =>
      match alookup acc uid with
      | some _ => acc
      | none =>
        match directory uid with
        | some u => aset acc uid u
        | none => acc)
    users_cache

/-- check_dm_unread (get_unread.py lines 58-81): probe one DM conversation.
conversations.info first; a positive unread_count_display, else a positive
unread_count, reports unread with that count; else, for an MPIM with a truthy
last_read, fetch the single newest message and, when its ts exceeds last_read,
fetch up to 10 messages after last_read and report their number as the count.
Any exception yields None. -/
def check_dm_unread (w : UnreadWorld) (conv_id : String) :
    Option (SlackConversation × Nat) × List ApiCall :=
  match w.conv_info conv_id with
  | .error _ => (none, [.conv_info conv_id])
  | .ok detailed =>
    if posCount detailed.unread_count_display then
      (some (detailed, detailed.unread_count_display.getD 0), [.conv_info conv_id])
    else if posCount detailed.unread_count then
      (some (detailed, detailed.unread_count.getD 0), [.conv_info conv_id])
    else if detailed.is_mpim && strTruthy detailed.last_read then
      let lr := detailed.last_read.getD ""
      match w.history conv_id none 1 with
      | .error _ => (none, [.conv_info conv_id, .history conv_id none 1])
      | .ok [] => (none, [.conv_info conv_id, .history conv_id none 1])
      | .ok (m :: _) =>
        if pyStrLt lr m.ts then
          match w.history conv_id (some lr) 10 with
          | .error _ =>
            (none, [.conv_info conv_id, .history conv_id none 1, .history conv_id (some lr) 10])
          | .ok unread_msgs =>
            (some (detailed, unread_msgs.length),
             [.conv_info conv_id, .history conv_id none 1, .history conv_id (some lr) 10])
        else
          (none, [.conv_info conv_id, .history conv_id none 1])
    else
      (none, [.conv_info conv_id])

/-- check_channel_unread (get_unread.py lines 175-198): probe one channel.
Same count-field checks; the watermark fallback applies to every channel with a
truthy last_read (no MPIM restriction) and additionally requires the fetched
window to be non-empty. -/
def check_channel_unread (w : UnreadWorld) (conv_id : String) :
    Option (SlackConversation × Nat) × List ApiCall :=
  match w.conv_info conv_id with
  | .error _ => (none, [.conv_info conv_id])
  | .ok detailed =>
    if posCount detailed.unread_count_display then
      (some (detailed, detailed.unread_count_display.getD 0), [.conv_info conv_id])
    else if posCount detailed.unread_count then
      (some (detailed, detailed.unread_count.getD 0), [.conv_info conv_id])
    else if strTruthy detailed.last_read then
      let lr := detailed.last_read.getD ""
      match w.history conv_id none 1 with
      | .error _ => (none, [.conv_info conv_id, .history conv_id none 1])
      | .ok [] => (none, [.conv_info conv_id, .history conv_id none 1])
      | .ok (m :: _) =>
        if pyStrLt lr m.ts then
          match w.history conv_id (some lr) 10 with
          | .error _ =>
            (none, [.conv_info conv_id, .history conv_id none 1, .history conv_id (some lr) 10])
          | .ok unread_msgs =>
            if unread_msgs.isEmpty then
              (none, [.conv_info conv_id, .history conv_id none 1, .history conv_id (some lr) 10])
            else
              (some (detailed, unread_msgs.length),
               [.conv_info conv_id, .history conv_id none 1, .history conv_id (some lr) 10])
        else
          (none, [.conv_info conv_id, .history conv_id none 1])
    else
      (none, [.conv_info conv_id])

/-- The parallel-batch probe loops (get_unread.py lines 86-96 and 204-212):
probe each conversation, keep the non-None results in order. -/
def probe_all (check : SlackConversation → Option (SlackConversation × Nat) × List ApiCall) :
    List SlackConversation → List (SlackConversation × Nat) × List ApiCall
  | [] => ([], [])
  | c :: rest =>
    let r := check c
    let rs := probe_all check rest
    (match r.1 with
     | some p => p :: rs.1
     | none => rs.1,
     r.2 ++ rs.2)

/-- Collect DM participant ids (`if conv.user: user_ids_to_prefetch.add(...)`). -/
def collect_dm_user_ids (results : List (SlackConversation × Nat)) (acc : List String) :
    List String :=
  results.foldl
    (fun s p =>
      match p.1.user with
      | some u => if u != "" then sadd s u else s
      | none => s)
    acc

/-- Collect message author ids (`if msg.user: user_ids_to_prefetch.add(...)`). -/
def collect_author_ids (messages : List SlackMessage) (acc : List String) : List String :=
  messages.foldl
    (fun s msg =>
      match msg.user with
      | some u => if u != "" then sadd s u else s
      | none => s)
    acc

/-- Stable insertion keeping descending unread counts: the new pair goes before
the first element whose count does not exceed it. -/
def insertByCountDesc (p : SlackConversation × Nat) :
    List (SlackConversation × Nat) → List (SlackConversation × Nat)
  | [] => [p]
  | q :: rest => if q.2 ≤ p.2 then p :: q :: rest else q :: insertByCountDesc p rest

/-- `list.sort(key=lambda x: x[1], reverse=True)`: stable descending sort by
unread count (CPython's sort is stable). -/
def sortByCountDesc : List (SlackConversation × Nat) → List (SlackConversation × Nat)
  | [] => []
  | p :: rest => insertByCountDesc p (sortByCountDesc rest)

/-- The sentinel fix of get_unread.py lines 112-114 and 219-221: a truthy
last_read starting with "0000000000" (set by "Mark as unread") is invalid and
is replaced by None so recent history is fetched without a lower bound. -/
def sentinelFix : Option String → Option String
  | none => none
  | some s => if (s != "") && pyStartsWith s "0000000000" then none else some s

/-- A formatted message dict of an unread entry. DM entries carry no thread_ts
key; modelled as `none` there. -/
structure FormattedMessage where
  user : String
  text : String
  ts : String
  thread_ts : Option String
deriving DecidableEq, Repr

/-- An entry of unread_dms / unread_channels. -/
structure UnreadEntry where
  channel_id : String
  name : String
  unread_count : Nat
  messages : List FormattedMessage
deriving DecidableEq, Repr

/-- An entry of the mentions list. -/
structure MentionEntry where
  user : String
  text : String
  ts : String
  channel_id : String
deriving DecidableEq, Repr

/-- Resolve a message author for display (`... if msg.user else "Unknown"`). -/
def resolve_author (users_cache : List (String × SlackUser)) (user : Option String) :
    String :=
  match user with
  | some u => if u != "" then get_cached_user_name users_cache u else "Unknown"
  | none => "Unknown"

/-- Format the unread messages of one DM, oldest first (`reversed(messages)`). -/
def format_dm_messages (users_cache : List (String × SlackUser))
    (messages : List SlackMessage) : List FormattedMessage :=
  messages.reverse.map
    (fun msg =>
      { user := resolve_author users_cache msg.user, text := msg.text, ts := msg.ts,
        thread_ts := none })

/-- Format the unread messages of one channel; thread replies keep thread_ts. -/
def format_channel_messages (users_cache : List (String × SlackUser))
    (messages : List SlackMessage) : List FormattedMessage :=
  messages.reverse.map
    (fun msg =>
      { user := resolve_author users_cache msg.user, text := msg.text, ts := msg.ts,
        thread_ts := if msg.is_thread_reply then msg.thread_ts else none })

/-- MPIM display-name derivation (get_unread.py lines 135-141): strip "mpdm-",
split on "--", keep each part's leading "-"-segment, join the first three and
summarize the rest. -/
def mpim_display_name (name : String) : String :=
  let parts := (name.replace "mpdm-" "").splitOn "--"
  let parts := parts.map (fun p => if p != "" then ((p.splitOn "-").headD p) else p)
  let base := String.intercalate ", " (parts.take 3)
  if 3 < parts.length then base ++ " +" ++ toString (parts.length - 3) else base

/-- The DM name of an unread entry (get_unread.py lines 131-143). -/
def dm_display_name (users_cache : List (String × SlackUser))
    (conv : SlackConversation) : String :=
  match conv.user with
  | some u =>
    if conv.is_im && (u != "") then "@" ++ get_cached_user_name users_cache u
    else
      match conv.name with
      | some n =>
        if conv.is_mpim && (n != "") then mpim_display_name n
        else
          let dn := conv.display_name
          if dn != "" then dn else if n != "" then n else conv.id
      | none =>
        let dn := conv.display_name
        if dn != "" then dn else conv.id
  | none =>
    match conv.name with
    | some n =>
      if conv.is_mpim && (n != "") then mpim_display_name n
      else
        let dn := conv.display_name
        if dn != "" then dn else if n != "" then n else conv.id
    | none =>
      let dn := conv.display_name
      if dn != "" then dn else conv.id

/-- The retained-DM loop (get_unread.py lines 107-160): for each retained
(conversation, count), fetch history after the sentinel-fixed watermark (an
exception yields []), and when messages came back collect their author ids and
emit the formatted entry. Returns the entries, the accumulated author-id set
and the trace. -/
def dm_retained_loop (w : UnreadWorld) (users_cache : List (String × SlackUser))
    (max_messages_per_conversation : Nat) :
    List (SlackConversation × Nat) → List String →
    List UnreadEntry × List String × List ApiCall
  | [], ids => ([], ids, [])
  | (conv, unread_count) :: rest, ids =>
    let oldest := sentinelFix conv.last_read
    let tr := [ApiCall.history conv.id oldest max_messages_per_conversation]
    match w.history conv.id oldest max_messages_per_conversation with
    | .error _ =>
      let r := dm_retained_loop w users_cache max_messages_per_conversation rest ids
      (r.1, r.2.1, tr ++ r.2.2)
    | .ok [] =>
      let r := dm_retained_loop w users_cache max_messages_per_conversation rest ids
      (r.1, r.2.1, tr ++ r.2.2)
    | .ok (m :: ms) =>
      let messages := m :: ms
      let ids' := collect_author_ids messages ids
      let entry : UnreadEntry :=
        { channel_id := conv.id, name := dm_display_name users_cache conv,
          unread_count := unread_count,
          messages := format_dm_messages users_cache messages }
      let r := dm_retained_loop w users_cache max_messages_per_conversation rest ids'
      (entry :: r.1, r.2.1, tr ++ r.2.2)

/-- The retained-channel loop (get_unread.py lines 217-253), like the DM loop
but with the channel entry shape. -/
def channel_retained_loop (w : UnreadWorld) (users_cache : List (String × SlackUser))
    (max_messages_per_conversation : Nat) :
    List (SlackConversation × Nat) → List String →
    List UnreadEntry × List String × List ApiCall
  | [], ids => ([], ids, [])
  | (conv, unread_count) :: rest, ids =>
    let oldest := sentinelFix conv.last_read
    let tr := [ApiCall.history conv.id oldest max_messages_per_conversation]
    match w.history conv.id oldest max_messages_per_conversation with
    | .error _ =>
      let r := channel_retained_loop w users_cache max_messages_per_conversation rest ids
      (r.1, r.2.1, tr ++ r.2.2)
    | .ok [] =>
      let r := channel_retained_loop w users_cache max_messages_per_conversation rest ids
      (r.1, r.2.1, tr ++ r.2.2)
    | .ok (m :: ms) =>
      let messages := m :: ms
      let ids' := collect_author_ids messages ids
      let entry : UnreadEntry :=
        { channel_id := conv.id,
          name :=
            (let dn := conv.display_name
             if dn != "" then dn else conv.name.getD ""),
          unread_count := unread_count,
          messages := format_channel_messages users_cache messages }
      let r := channel_retained_loop w users_cache max_messages_per_conversation rest ids'
      (entry :: r.1, r.2.1, tr ++ r.2.2)

/-- The DM pass (get_unread.py lines 47-160): list im,mpim conversations, probe
the first max_dms_to_scan of them, collect the participant ids, sort by count
descending, prefetch the participant names when any were collected (an
exception here is uncaught and aborts the workspace), then run the retained
loop on the first max_conversations_to_check sorted conversations. Returns the
entries, checked_count, the author-id set and the users cache after the
prefetch. -/
def dm_phase (w : UnreadWorld)
    (max_messages_per_conversation max_conversations_to_check max_dms_to_scan : Nat) :
    Except String (List UnreadEntry × Nat × List String × List (String × SlackUser)) ×
      List ApiCall :=
  match w.dm_list with
  | .error e => (.error e, [.list_convs "im,mpim"])
  | .ok dm_conversations =>
    let dms_to_check := dm_conversations.take max_dms_to_scan
    let probe := probe_all (fun conv => check_dm_unread w conv.id) dms_to_check
    let ids0 := collect_dm_user_ids probe.1 []
    let sorted := sortByCountDesc probe.1
    let pre : Except String (List (String × SlackUser)) × List ApiCall :=
      if ids0.isEmpty then (.ok w.users_cache0, [])
      else if w.prefetch_ok then
        (.ok (prefetch_users w.users_cache0 w.user_directory ids0), [.prefetch ids0])
      else (.error "prefetch_failed", [.prefetch ids0])
    match pre.1 with
    | .error e => (.error e, ApiCall.list_convs "im,mpim" :: (probe.2 ++ pre.2))
    | .ok cache1 =>
      let retained := sorted.take max_conversations_to_check
      let loop := dm_retained_loop w cache1 max_messages_per_conversation retained ids0
      (.ok (loop.1, retained.length, loop.2.1, cache1),
       ApiCall.list_convs "im,mpim" :: (probe.2 ++ pre.2 ++ loop.2.2))

/-- The hard channel scan cap (get_unread.py line 201). -/
def max_channels_to_scan : Nat := 50

/-- The channel pass (get_unread.py lines 162-253): list channels, probe the
first max_channels_to_scan, sort by count descending and run the retained loop
on as many as the remaining budget allows. No prefetch happens inside; author
ids accumulate into the shared set. -/
def channel_phase (w : UnreadWorld)
    (max_messages_per_conversation remaining_budget : Nat) (ids : List String)
    (users_cache : List (String × SlackUser)) :
    Except String (List UnreadEntry × List String) × List ApiCall :=
  match w.channel_list with
  | .error e => (.error e, [.list_convs "public_channel,private_channel"])
  | .ok channel_conversations =>
    let channels_to_check := channel_conversations.take max_channels_to_scan
    let probe := probe_all (fun conv => check_channel_unread w conv.id) channels_to_check
    let sorted := sortByCountDesc probe.1
    let retained := sorted.take remaining_budget
    let loop := channel_retained_loop w users_cache max_messages_per_conversation retained ids
    (.ok (loop.1, loop.2.1),
     ApiCall.list_convs "public_channel,private_channel" :: (probe.2 ++ loop.2.2))

/-- Build one mention entry (get_unread.py lines 298-305). -/
def mkMention (users_cache : List (String × SlackUser)) (msg : SlackMessage) :
    MentionEntry :=
  { user := resolve_author users_cache msg.user, text := msg.text, ts := msg.ts,
    channel_id := msg.channel }

/-- The mention filter loop (get_unread.py lines 283-309): walk the search hits
in order; resolve each hit's channel last_read through the per-call cache (an
info failure caches None); keep the hit when the cached last_read is truthy and
the hit's ts strictly exceeds it; stop once 10 mentions are collected. -/
def mentions_loop (w : UnreadWorld) (users_cache : List (String × SlackUser)) :
    List SlackMessage → List (String × Option String) → List MentionEntry →
    List MentionEntry × List ApiCall
  | [], _, mentions => (mentions, [])
  | msg :: rest, channel_read_cache, mentions =>
    let step : List (String × Option String) × List ApiCall :=
      match alookup channel_read_cache msg.channel with
      | some _ => (channel_read_cache, [])
      | none =>
        match w.conv_info msg.channel with
        | .ok channel_info =>
          (aset channel_read_cache msg.channel channel_info.last_read,
           [.conv_info msg.channel])
        | .error _ => (aset channel_read_cache msg.channel none, [.conv_info msg.channel])
    match (alookup step.1 msg.channel).join with
    | some last_read =>
      if (last_read != "") && pyStrLt last_read msg.ts then
        let mentions' := mentions ++ [mkMention users_cache msg]
        if 10 ≤ mentions'.length then (mentions', step.2)
        else
          let r := mentions_loop w users_cache rest step.1 mentions'
          (r.1, step.2 ++ r.2)
      else
        let r := mentions_loop w users_cache rest step.1 mentions
        (r.1, step.2 ++ r.2)
    | none =>
      let r := mentions_loop w users_cache rest step.1 mentions
      (r.1, step.2 ++ r.2)

/-- The mention-author list (get_unread.py line 277:
`[msg.user for msg in results.messages if msg.user]`). -/
def mention_authors_of (msgs : List SlackMessage) : List String :=
  msgs.filterMap
    (fun m =>
      match m.user with
      | some u => if u != "" then some u else none
      | none => none)

/-- The mention-discovery pass (get_unread.py lines 260-311): auth.test for the
current user id, search for the mention token newest-first, prefetch the hit
authors, then filter through the per-call watermark cache. The whole pass sits
in a `try .. except: pass`, so any raise inside it yields whatever mentions
were collected before it — here the failing calls all precede the first append,
so a failure yields no mentions at all. -/
def mentions_phase (w : UnreadWorld) (users_cache : List (String × SlackUser)) :
    List MentionEntry × List ApiCall :=
  match w.auth_user_id with
  | .error _ => ([], [.auth_test])
  | .ok none => ([], [.auth_test])
  | .ok (some uid) =>
    if uid == "" then ([], [.auth_test])
    else
      let query := "<@" ++ uid ++ ">"
      match w.search with
      | .error _ => ([], [.auth_test, .search_call query])
      | .ok msgs =>
        let mention_authors := mention_authors_of msgs
        if mention_authors.isEmpty then
          let loop := mentions_loop w users_cache msgs [] []
          (loop.1, ApiCall.auth_test :: ApiCall.search_call query :: loop.2)
        else if w.prefetch_ok then
          let cache' := prefetch_users users_cache w.user_directory mention_authors
          let loop := mentions_loop w cache' msgs [] []
          (loop.1,
           ApiCall.auth_test :: ApiCall.search_call query ::
             ApiCall.prefetch mention_authors :: loop.2)
        else
          ([], [.auth_test, .search_call query, .prefetch mention_authors])

/-- The per-workspace result. The source omits the unread_dms, unread_channels
and mentions keys when their lists are empty; emptiness models omission. -/
structure WorkspaceResult where
  summary : String
  workspace : String
  unread_dms : List UnreadEntry
  unread_channels : List UnreadEntry
  mentions : List MentionEntry
  total_unread_dm_messages : Nat
  total_channels_with_unread : Nat
  total_mentions : Nat
deriving DecidableEq, Repr

/-- The natural-language synopsis (get_unread.py lines 318-327). -/
def build_summary (total_unread_dms dm_count total_unread_channels total_mentions : Nat) :
    String :=
  let parts : List String :=
    (if total_unread_dms ≠ 0 then
       [toString total_unread_dms ++ " unread message(s) in " ++ toString dm_count ++ " DM(s)"]
     else []) ++
    (if total_unread_channels ≠ 0 then
       [toString total_unread_channels ++ " channel(s) with new messages"]
     else []) ++
    (if total_mentions ≠ 0 then [toString total_mentions ++ " recent mention(s)"] else [])
  if parts.isEmpty then "No unread messages" else String.intercalate "; " parts

/-- The tail of _get_unread_for_workspace after the channel pass: mention
discovery (when requested) and summary assembly (lines 260-347). -/
def assemble_result (w : UnreadWorld) (workspace : String) (include_mentions : Bool)
    (unread_dms unread_channels : List UnreadEntry)
    (users_cache : List (String × SlackUser)) : WorkspaceResult × List ApiCall :=
  let m := if include_mentions then mentions_phase w users_cache else ([], [])
  let mentions := m.1
  let total_unread_dms := (unread_dms.map (·.unread_count)).sum
  let total_unread_channels := unread_channels.length
  let total_mentions := mentions.length
  ({ summary :=
       build_summary total_unread_dms unread_dms.length total_unread_channels total_mentions,
     workspace := workspace, unread_dms := unread_dms, unread_channels := unread_channels,
     mentions := mentions, total_unread_dm_messages := total_unread_dms,
     total_channels_with_unread := total_unread_channels, total_mentions := total_mentions },
   m.2)

/-- _get_unread_for_workspace (get_unread.py lines 19-347): the DM pass, the
channel pass under the remaining budget, the deferred author prefetch (uncaught
on failure), mention discovery and summary assembly. Returns the result or the
uncaught exception, plus the full API-call trace. -/
def get_unread_for_workspace (w : UnreadWorld) (workspace : String)
    (include_channels include_dms include_mentions : Bool)
    (max_messages_per_conversation max_conversations_to_check max_dms_to_scan : Nat) :
    Except String WorkspaceResult × List ApiCall :=
  let dmr :=
    if include_dms then
      dm_phase w max_messages_per_conversation max_conversations_to_check max_dms_to_scan
    else (.ok ([], 0, [], w.users_cache0), [])
  match dmr.1 with
  | .error e => (.error e, dmr.2)
  | .ok (unread_dms, checked_count, ids1, cache1) =>
    let remaining_budget := max_conversations_to_check - checked_count
    let chr :=
      if include_channels && decide (0 < remaining_budget) then
        channel_phase w max_messages_per_conversation remaining_budget ids1 cache1
      else (.ok ([], ids1), [])
    match chr.1 with
    | .error e => (.error e, dmr.2 ++ chr.2)
    | .ok (unread_channels, ids2) =>
      if ids2.isEmpty then
        let r := assemble_result w workspace include_mentions unread_dms unread_channels cache1
        (.ok r.1, dmr.2 ++ chr.2 ++ r.2)
      else if w.prefetch_ok then
        let cache2 := prefetch_users cache1 w.user_directory ids2
        let r := assemble_result w workspace include_mentions unread_dms unread_channels cache2
        (.ok r.1, dmr.2 ++ chr.2 ++ (ApiCall.prefetch ids2 :: r.2))
      else
        (.error "prefetch_failed", dmr.2 ++ chr.2 ++ [ApiCall.prefetch ids2])

/-- Detail-probe (conversations.info) calls in a trace. -/
def countConvInfo (trace : List ApiCall) : Nat :=
  (trace.filter
    (fun c =>
      match c with
      | .conv_info _ => true
      | _ => false)).length

/-- Hits returned by the scripted mention search (0 when the search raises). -/
def searchHitCount (w : UnreadWorld) : Nat :=
  match w.search with
  | .ok msgs => msgs.length
  | .error _ => 0

/-- The value the per-call channel_read_cache ends up holding for a channel:
the conversation detail's last_read, or None when the info call raises. -/
def cached_last_read (w : UnreadWorld) (channel : String) : Option String :=
  match w.conv_info channel with
  | .ok info => info.last_read
  | .error _ => none

/-- Specification-side mention filter: a search hit qualifies when its
channel's cached watermark is truthy and the hit's ts strictly exceeds it. -/
def mention_qualifies (w : UnreadWorld) (msg : SlackMessage) : Bool :=
  match cached_last_read w msg.channel with
  | some lr => (lr != "") && pyStrLt lr msg.ts
  | none => false

/-- Specification-side unread-determination rule exactly as claim C3 states it,
over the probed conversation's detail record, the newest message (when the
single-message fetch returned one) and the post-watermark window: (a) displayed
count present and positive; (b) else raw count present and positive; (c) else,
for multi-party direct messages specifically, watermark present and the newest
ts strictly above it, reporting the window's length. -/
def claim_unread_rule (detailed : SlackConversation) (newest : Option SlackMessage)
    (window : List SlackMessage) : Option Nat :=
  if posCount detailed.unread_count_display then detailed.unread_count_display
  else if posCount detailed.unread_count then detailed.unread_count
  else if detailed.is_mpim && strTruthy detailed.last_read then
    match newest with
    | some m => if pyStrLt (detailed.last_read.getD "") m.ts then some window.length else none
    | none => none
  else none

/-! ### Concrete fixtures for the counterexamples and witnesses -/

/-- A conversation record with every flag clear and every field empty. -/
def blankConv : SlackConversation :=
  { id := "", name := none, is_channel := false, is_group := false, is_im := false,
    is_mpim := false, is_private := false, is_archived := false, is_member := true,
    user := none, last_read := none, unread_count := none, unread_count_display := none }

/-- A world whose calls all fail; fixture fields are overridden per test. -/
def blankWorld : UnreadWorld :=
  { users_cache0 := [], dm_list := .error "not_scripted", channel_list := .error "not_scripted",
    conv_info := fun _ => .error "not_scripted", history := fun _ _ _ => .error "not_scripted",
    user_directory := fun _ => none, prefetch_ok := true,
    auth_user_id := .error "not_scripted", search := .error "not_scripted" }

/-- C1 fixture: 25 listed DMs, every detail probe reporting one displayed
unread, history always empty. -/
def c1World : UnreadWorld :=
  { blankWorld with
    dm_list := .ok ((List.range 25).map
      (fun i => { blankConv with id := "D" ++ toString i, is_im := true })),
    channel_list := .ok [],
    conv_info := fun cid =>
      .ok { blankConv with
            id := cid, is_im := true, unread_count_display := some 1 },
    history := fun _ _ _ => .ok [] }

/-- C2 fixture: an MPIM whose watermark is the all-zero sentinel, with one
message newer than it. -/
def c2Msg : SlackMessage :=
  { ts := "1728000000.000100", text := "hi", user := some "U1", thread_ts := none,
    reply_count := none, channel := "G1" }

def c2World : UnreadWorld :=
  { blankWorld with
    conv_info := fun cid =>
      .ok { blankConv with
            id := cid, is_mpim := true, last_read := some "0000000000.000000" },
    history := fun _ _ _ => .ok [c2Msg] }

/-- C3 fixture: a plain channel (not an MPIM) with no count fields, a real
watermark and one newer message. -/
def c3Conv : SlackConversation :=
  { blankConv with id := "C1", is_channel := true, last_read := some "1111111111.000000" }

def c3Msg : SlackMessage :=
  { ts := "1728000000.000100", text := "news", user := some "U2", thread_ts := none,
    reply_count := none, channel := "C1" }

def c3World : UnreadWorld :=
  { blankWorld with
    conv_info := fun cid => .ok { c3Conv with id := cid },
    history := fun _ _ _ => .ok [c3Msg] }

/-- C3 witness fixture: a DM probe seeing a positive displayed count. -/
def c3aWorld : UnreadWorld :=
  { blankWorld with
    conv_info := fun cid =>
      .ok { blankConv with
            id := cid, is_im := true, unread_count_display := some 3 } }

/-- C5 fixture: five mention hits across two channels with watermarks; two hits
are older than their channel's watermark, three are newer. -/
def c5Hit (ts ch : String) : SlackMessage :=
  { ts := ts, text := "mention", user := some "U7", thread_ts := none,
    reply_count := none, channel := ch }

def c5Hits : List SlackMessage :=
  [c5Hit "1700000001.000000" "CA", c5Hit "1500000000.000000" "CA",
   c5Hit "1700000002.000000" "CB", c5Hit "1600000000.000000" "CB",
   c5Hit "1700000003.000000" "CB"]

def c5World : UnreadWorld :=
  { blankWorld with
    conv_info := fun cid =>
      .ok { blankConv with
            id := cid, is_channel := true,
            last_read :=
              if cid = "CA" then some "1600000000.000000" else some "1700000000.000000" },
    auth_user_id := .ok (some "U9"),
    search := .ok c5Hits }

/-- Witness fixture for C7: a single-page server. -/
def c7Conv : SlackConversation :=
  { blankConv with id := "X", is_channel := true, last_read := some "1700000000.000001" }

def c7Server : Option String → ListPage :=
  fun _ => { channels := [c7Conv], next_cursor := none }

/-- Witness fixtures for C9 and C10. -/
def c9Payload : UserPayload :=
  { id := "U1", name := "alice", real_name := none, display_name := none, is_bot := false }

def c9Fetch : String → Except String UserPayload :=
  fun _ => .ok c9Payload

/-- Witness fixture for C8: one tenant kept, one removed, one updated, one added. -/
def c8CfgA : WorkspaceConfig := { xoxc_token := "xa", xoxd_cookie := "da", ws_name := none }

def c8CfgB : WorkspaceConfig := { xoxc_token := "xb", xoxd_cookie := "db", ws_name := none }

def c8CfgB2 : WorkspaceConfig := { xoxc_token := "xb2", xoxd_cookie := "db", ws_name := none }

def c8CfgC : WorkspaceConfig := { xoxc_token := "xc", xoxd_cookie := "dc", ws_name := none }

def c8CfgD : WorkspaceConfig := { xoxc_token := "xd", xoxd_cookie := "dd", ws_name := none }

def c8Old : ManagerState :=
  { config := { workspaces := [("a", c8CfgA), ("b", c8CfgB), ("c", c8CfgC)],
                default_workspace := some "a" },
    clients := [("a", ⟨0, c8CfgA⟩), ("b", ⟨1, c8CfgB⟩), ("c", ⟨2, c8CfgC⟩)],
    next_serial := 3, closed := [] }

def c8New : Config :=
  { workspaces := [("a", c8CfgA), ("b", c8CfgB2), ("d", c8CfgD)],
    default_workspace := some "a" }

/-! ### Theorems: Rate Controller (C6) -/

theorem rateLimiter_acquire_last_request (st : RateLimiter) (now : ℚ) :
    (st.acquire now).last_request = max now (st.last_request + st.interval * st.backoff_factor) := by
  unfold RateLimiter.acquire
  by_cases h : 0 < st.last_request + st.interval * st.backoff_factor - now
  · simp only [h, if_pos]
    have : st.last_request + st.interval * st.backoff_factor > now := by linarith
    rw [max_eq_right (le_of_lt this)]
    ring
  · simp only [h, if_neg, not_false_iff]
    have : st.last_request + st.interval * st.backoff_factor ≤ now := by linarith
    rw [max_eq_left this]

/-- C6: each backoff() doubles the multiplier up to the fixed ceiling 60 and
each reset_backoff() restores it to 1; whenever the monotonic clock has not
gone backwards, an acquire stamps a time at least interval * multiplier after
the previous stamp, so with multiplier 1 successive calls are spaced by at
least the configured interval T, after one backoff event the spacing bound at
least doubles (2T), and after one subsequent success (reset) it returns to T. -/
theorem c6_rate_controller :
    (∀ st : RateLimiter, (st.backoff).backoff_factor = min (st.backoff_factor * 2) 60) ∧
    (∀ st : RateLimiter, (st.reset_backoff).backoff_factor = 1) ∧
    (∀ (st : RateLimiter) (now : ℚ), st.last_request ≤ now →
      st.interval * st.backoff_factor ≤ (st.acquire now).last_request - st.last_request) ∧
    (∀ (st : RateLimiter) (now : ℚ), st.backoff_factor = 1 → st.last_request ≤ now →
      st.interval ≤ (st.acquire now).last_request - st.last_request) ∧
    (∀ (st : RateLimiter) (now : ℚ), st.backoff_factor = 1 → st.last_request ≤ now →
      2 * st.interval ≤ ((st.backoff).acquire now).last_request - st.last_request) ∧
    (∀ (st : RateLimiter) (now : ℚ), st.last_request ≤ now →
      st.interval ≤ ((st.reset_backoff).acquire now).last_request - st.last_request) := by
  have key : ∀ (st : RateLimiter) (now : ℚ), st.last_request ≤ now →
      st.interval * st.backoff_factor ≤ (st.acquire now).last_request - st.last_request := by
    intro st now _
    rw [rateLimiter_acquire_last_request]
    have h2 : st.last_request + st.interval * st.backoff_factor ≤
        max now (st.last_request + st.interval * st.backoff_factor) := le_max_right _ _
    linarith
  refine ⟨fun st => rfl, fun st => rfl, key, ?_, ?_, ?_⟩
  · intro st now h1 h2
    have := key st now h2
    rw [h1, mul_one] at this
    exact this
  · intro st now h1 h2
    have := key st.backoff now (by simpa [RateLimiter.backoff] using h2)
    have hb : (st.backoff).backoff_factor = 2 := by
      rw [show (st.backoff).backoff_factor = min (st.backoff_factor * 2) 60 from rfl, h1]
      norm_num
    rw [hb] at this
    have hlast : (st.backoff).last_request = st.last_request := rfl
    have hint : (st.backoff).interval = st.interval := rfl
    rw [hlast, hint] at this
    linarith
  · intro st now h2
    have := key st.reset_backoff now (by simpa [RateLimiter.reset_backoff] using h2)
    have hb : (st.reset_backoff).backoff_factor = 1 := rfl
    rw [hb, mul_one] at this
    have hlast : (st.reset_backoff).last_request = st.last_request := rfl
    have hint : (st.reset_backoff).interval = st.interval := rfl
    rw [hlast, hint] at this
    linarith

/-- Witness for C6 at a concrete limiter (interval 3, multiplier 1, clock at 5). -/
theorem c6_rate_controller_witness :
    (RateLimiter.mk 3 0 1).interval ≤
      ((RateLimiter.mk 3 0 1).acquire 5).last_request - (RateLimiter.mk 3 0 1).last_request :=
  c6_rate_controller.2.2.2.1 (RateLimiter.mk 3 0 1) 5 rfl (by norm_num)

/-! ### Association-list lemmas -/

theorem alookup_aset_self {α : Type} (l : List (String × α)) (k : String) (v : α) :
    alookup (aset l k v) k = some v := by
  induction l with
  | nil => simp [aset, alookup]
  | cons hd tl ih =>
    obtain ⟨k', v'⟩ := hd
    by_cases h : k' = k
    · simp [aset, alookup, h]
    · simp [aset, alookup, h, ih]

theorem alookup_aset_ne {α : Type} (l : List (String × α)) (k k' : String) (v : α)
    (h : k ≠ k') : alookup (aset l k v) k' = alookup l k' := by
  induction l with
  | nil => simp [aset, alookup, h]
  | cons hd tl ih =>
    obtain ⟨k0, v0⟩ := hd
    by_cases h0 : k0 = k
    · subst h0
      simp [aset, alookup, h]
    · simp [aset, alookup, h0, ih]

theorem alookup_aset_isSome_mono {α : Type} (l : List (String × α)) (k k' : String)
    (v : α) (h : (alookup l k').isSome = true) :
    (alookup (aset l k v) k').isSome = true := by
  by_cases hk : k = k'
  · subst hk
    rw [alookup_aset_self]
    rfl
  · rw [alookup_aset_ne l k k' v hk]
    exact h

/-! ### Theorems: Request Pipeline (C4) -/

/-- C4 counterexample: a transport failure that is not an HTTP status error
(e.g. a connection failure) propagates out of the pipeline as a raw uncaught
exception instead of a classified error, refuting the claim that any transport
failure fails with a classified error. -/
theorem c4_counterexample :
    (requestRun [Attempt.transportFailure]).1 = ReqOutcome.rawException := rfl

/-- C4 (amended): for every script consisting of rate-limited attempts followed
by a deciding attempt, the pipeline handles each rate-limited attempt by
invoking backoff(), sleeping the server-advised Retry-After delay (60 seconds
when absent) and retrying the same call, and the first non-rate-limited
attempt decides the outcome with no further retry: success invokes reset();
an HTTP error status or an in-payload soft error fails immediately with a
classified SlackAPIError; a transport failure other than an HTTP status error
propagates as a raw exception. -/
theorem c4_pipeline_classified :
    ∀ (pre : List Attempt), (∀ b ∈ pre, isRateLimitedAttempt b = true) →
    ∀ (a : Attempt), isRateLimitedAttempt a = false →
    ∀ (rest : List Attempt),
      requestRun (pre ++ a :: rest) =
        (specFinalOutcome a,
         pre.flatMap
            (fun b => [ReqEvent.acquire, ReqEvent.backoffCalled,
                       ReqEvent.sleep (advisedDelay b)]) ++
           specFinalEvents a) := by
  intro pre
  induction pre with
  | nil =>
    intro _ a ha rest
    simp only [List.nil_append, List.flatMap_nil]
    cases a with
    | transportFailure => rfl
    | response r =>
      have ha' : (decide (r.status = 429) ||
          (decide (r.status < 400) && decide (r.ok = false) &&
            decide (r.error.getD "unknown_error" = "ratelimited"))) = false := ha
      rw [Bool.or_eq_false_iff] at ha'
      obtain ⟨h429b, handb⟩ := ha'
      have h429 : ¬ (r.status = 429) := by simpa using h429b
      simp only [requestRun, specFinalOutcome, specFinalEvents]
      by_cases h400 : 400 ≤ r.status
      · simp [h400, h429]
      · have hlt : r.status < 400 := by omega
        by_cases hok : r.ok = false
        · have herr : ¬ (r.error.getD "unknown_error" = "ratelimited") := by
            simp only [Bool.and_eq_false_iff, decide_eq_false_iff_not] at handb
            rcases handb with h | h
            · rcases h with h | h
              · exact absurd hlt h
              · exact absurd hok h
            · exact h
          simp [h400, herr, hok]
        · have hok' : r.ok = true := by simpa using hok
          simp [h400, hok']
  | cons b pre ih =>
    intro hpre a ha rest
    have hb : isRateLimitedAttempt b = true := hpre b (List.mem_cons_self b pre)
    have hrest : ∀ x ∈ pre, isRateLimitedAttempt x = true :=
      fun x hx => hpre x (List.mem_cons_of_mem b hx)
    have tail := ih hrest a ha rest
    cases b with
    | transportFailure => simp [isRateLimitedAttempt] at hb
    | response r =>
      have hb' : (decide (r.status = 429) ||
          (decide (r.status < 400) && decide (r.ok = false) &&
            decide (r.error.getD "unknown_error" = "ratelimited"))) = true := hb
      simp only [List.cons_append, List.flatMap_cons, List.append_assoc]
      rw [Bool.or_eq_true] at hb'
      rcases hb' with h429b | handb
      · have h429 : r.status = 429 := by simpa using h429b
        have h400 : 400 ≤ r.status := by omega
        simp only [requestRun, h400, h429]
        rw [tail]
        simp [advisedDelay]
      · have hand : r.status < 400 ∧ r.ok = false ∧
            r.error.getD "unknown_error" = "ratelimited" := by
          simp only [Bool.and_eq_true, decide_eq_true_eq] at handb
          exact ⟨handb.1.1, handb.1.2, handb.2⟩
        obtain ⟨hlt, hok, herr⟩ := hand
        have h400 : ¬ (400 ≤ r.status) := by omega
        simp only [requestRun, h400, hok, herr]
        rw [tail]
        simp [advisedDelay, h400, hok, herr]

/-- Witness for C4 at a concrete script: one in-payload rate-limited attempt
with Retry-After 5, then a success. -/
theorem c4_pipeline_witness :
    requestRun
        [Attempt.response ⟨200, some 5, false, some "ratelimited"⟩,
         Attempt.response ⟨200, none, true, none⟩] =
      (ReqOutcome.success,
       [ReqEvent.acquire, ReqEvent.backoffCalled, ReqEvent.sleep 5,
        ReqEvent.acquire, ReqEvent.resetCalled]) := by
  have h := c4_pipeline_classified
    [Attempt.response ⟨200, some 5, false, some "ratelimited"⟩] (by decide)
    (Attempt.response ⟨200, none, true, none⟩) (by decide) []
  simpa [specFinalOutcome, specFinalEvents, advisedDelay] using h

/-! ### Theorems: user cache (C9) -/

/-- C9: get_user_info returns the cached profile with no remote call when the
identifier is cached; otherwise it performs exactly one single-user fetch and
stores the result; a second call with the same identifier after any successful
call performs no further fetch and returns an equal profile; and no existing
cache entry is ever removed or replaced by the call (the cache is never
invalidated within the client's lifetime). -/
theorem c9_get_user_info :
    ∀ (cache : List (String × SlackUser)) (fetch : String → Except String UserPayload)
      (uid : String),
      (∀ u, alookup cache uid = some u →
        get_user_info cache fetch uid = .ok (u, cache, false)) ∧
      (∀ p, alookup cache uid = none → fetch uid = .ok p →
        get_user_info cache fetch uid =
          .ok (⟨p.id, p.name, p.real_name, p.display_name, p.is_bot⟩,
               aset cache uid ⟨p.id, p.name, p.real_name, p.display_name, p.is_bot⟩,
               true)) ∧
      (∀ u cache2 f1, get_user_info cache fetch uid = .ok (u, cache2, f1) →
        get_user_info cache2 fetch uid = .ok (u, cache2, false)) ∧
      (∀ u cache2 f1, get_user_info cache fetch uid = .ok (u, cache2, f1) →
        ∀ k v, alookup cache k = some v → alookup cache2 k = some v) := by
  intro cache fetch uid
  refine ⟨?_, ?_, ?_, ?_⟩
  · intro u hu
    simp [get_user_info, hu]
  · intro p hnone hp
    simp [get_user_info, hnone, hp]
  · intro u cache2 f1 h
    unfold get_user_info at h ⊢
    cases hc : alookup cache uid with
    | some u0 =>
      rw [hc] at h
      simp only [Except.ok.injEq, Prod.mk.injEq] at h
      obtain ⟨h1, h2, _⟩ := h
      subst h1; subst h2
      rw [hc]
    | none =>
      rw [hc] at h
      cases hf : fetch uid with
      | error e => rw [hf] at h; exact absurd h (by simp)
      | ok p =>
        rw [hf] at h
        simp only [Except.ok.injEq, Prod.mk.injEq] at h
        obtain ⟨h1, h2, _⟩ := h
        subst h1; subst h2
        rw [alookup_aset_self]
  · intro u cache2 f1 h k v hkv
    unfold get_user_info at h
    cases hc : alookup cache uid with
    | some u0 =>
      rw [hc] at h
      simp only [Except.ok.injEq, Prod.mk.injEq] at h
      obtain ⟨_, h2, _⟩ := h
      subst h2
      exact hkv
    | none =>
      rw [hc] at h
      cases hf : fetch uid with
      | error e => rw [hf] at h; exact absurd h (by simp)
      | ok p =>
        rw [hf] at h
        simp only [Except.ok.injEq, Prod.mk.injEq] at h
        obtain ⟨_, h2, _⟩ := h
        subst h2
        have hne : uid ≠ k := by
          intro he
          subst he
          rw [hc] at hkv
          exact absurd hkv (by simp)
        rw [alookup_aset_ne _ _ _ _ hne]
        exact hkv

/-- Witness for C9: an empty cache and a scripted fetch for user U1. -/
theorem c9_get_user_info_witness :
    get_user_info [] c9Fetch "U1" =
      .ok (⟨"U1", "alice", none, none, false⟩,
           aset [] "U1" ⟨"U1", "alice", none, none, false⟩, true) :=
  (c9_get_user_info [] c9Fetch "U1").2.1 c9Payload rfl rfl

/-! ### Theorems: mark_conversation (C10) -/

/-- C10: when the conversations.mark request succeeds, mark_conversation writes
ts into the last-read cache for the channel and a subsequent get_last_read
returns it; when the request fails, the error propagates before the cache
write, so the cache is left unchanged (the caller keeps the cache it held). -/
theorem c10_mark_conversation :
    ∀ (cache : List (String × String)) (req : Except String Unit) (channel ts : String),
      (∀ u, req = .ok u →
        mark_conversation cache req channel ts = .ok (aset cache channel ts) ∧
        get_last_read (aset cache channel ts) channel = some ts) ∧
      (∀ e, req = .error e → mark_conversation cache req channel ts = .error e) := by
  intro cache req channel ts
  constructor
  · intro u hu
    subst hu
    exact ⟨rfl, alookup_aset_self cache channel ts⟩
  · intro e he
    subst he
    rfl

/-- Witness for C10 at a concrete successful request. -/
theorem c10_mark_conversation_witness :
    mark_conversation [] (.ok ()) "C9" "1728000000.000100" =
      .ok (aset [] "C9" "1728000000.000100") :=
  ((c10_mark_conversation [] (.ok ()) "C9" "1728000000.000100").1 () rfl).1

/-! ### Theorems: Pagination Walker (C7) -/

theorem walk_visited (server : Option String → ListPage) :
    ∀ (fuel : Nat) (cursor : Option String) (st : PaginationState),
      (list_conversations_walk server fuel cursor st).visited =
        st.visited ++ walkPages server fuel cursor := by
  intro fuel
  induction fuel with
  | zero => intro cursor st; simp [list_conversations_walk, walkPages]
  | succ fuel ih =>
    intro cursor st
    simp only [list_conversations_walk, walkPages]
    by_cases h : strTruthy (server cursor).next_cursor
    · simp only [h, if_pos]
      rw [ih]
      simp [cachePage]
    · simp only [h, if_neg, not_false_iff]
      simp [cachePage]

theorem walk_conversations (server : Option String → ListPage) :
    ∀ (fuel : Nat) (cursor : Option String) (st : PaginationState),
      (list_conversations_walk server fuel cursor st).conversations =
        st.conversations ++ (walkPages server fuel cursor).flatMap (fun p => p.channels) := by
  intro fuel
  induction fuel with
  | zero => intro cursor st; simp [list_conversations_walk, walkPages]
  | succ fuel ih =>
    intro cursor st
    simp only [list_conversations_walk, walkPages]
    by_cases h : strTruthy (server cursor).next_cursor
    · simp only [h, if_pos]
      rw [ih]
      simp [cachePage]
    · simp only [h, if_neg, not_false_iff]
      simp [cachePage]

theorem walkPages_length_le (server : Option String → ListPage) :
    ∀ (fuel : Nat) (cursor : Option String),
      (walkPages server fuel cursor).length ≤ fuel := by
  intro fuel
  induction fuel with
  | zero => intro cursor; simp [walkPages]
  | succ fuel ih =>
    intro cursor
    simp only [walkPages]
    by_cases h : strTruthy (server cursor).next_cursor
    · simp only [h, if_pos, List.length_cons]
      exact Nat.succ_le_succ (ih _)
    · simp [h]

theorem walkPages_stop (server : Option String → ListPage) :
    ∀ (fuel : Nat) (cursor : Option String),
      (walkPages server fuel cursor).length = fuel ∨
        ∃ p, (walkPages server fuel cursor).getLast? = some p ∧
          strTruthy p.next_cursor = false := by
  intro fuel
  induction fuel with
  | zero => intro cursor; left; simp [walkPages]
  | succ fuel ih =>
    intro cursor
    simp only [walkPages]
    by_cases h : strTruthy (server cursor).next_cursor
    · simp only [h, if_pos]
      rcases ih (server cursor).next_cursor with hl | ⟨p, hp, hf⟩
      · left; simp [hl]
      · right
        refine ⟨p, ?_, hf⟩
        have hne : walkPages server fuel (server cursor).next_cursor ≠ [] := by
          intro hnil
          rw [hnil] at hp
          exact absurd hp (by simp)
        cases hrest : walkPages server fuel (server cursor).next_cursor with
        | nil => exact absurd hrest hne
        | cons b l =>
          rw [hrest] at hp
          rw [List.getLast?_cons_cons]
          exact hp
    · simp only [h, if_neg, not_false_iff]
      right
      exact ⟨server cursor, rfl, by simpa using h⟩

theorem walkPages_inner_truthy (server : Option String → ListPage) :
    ∀ (fuel : Nat) (cursor : Option String) (i : Nat),
      i + 1 < (walkPages server fuel cursor).length →
      ∃ p, (walkPages server fuel cursor)[i]? = some p ∧
        strTruthy p.next_cursor = true := by
  intro fuel
  induction fuel with
  | zero => intro cursor i hi; simp [walkPages] at hi
  | succ fuel ih =>
    intro cursor i hi
    by_cases h : strTruthy (server cursor).next_cursor
    · have hw : walkPages server (fuel + 1) cursor =
          server cursor :: walkPages server fuel (server cursor).next_cursor := by
        simp [walkPages, h]
      rw [hw] at hi ⊢
      cases i with
      | zero => exact ⟨server cursor, by simp, h⟩
      | succ i =>
        have hi' : i + 1 < (walkPages server fuel (server cursor).next_cursor).length := by
          simp only [List.length_cons] at hi
          omega
        obtain ⟨p, hp, ht⟩ := ih (server cursor).next_cursor i hi'
        exact ⟨p, by simpa using hp, ht⟩
    · have hw : walkPages server (fuel + 1) cursor = [server cursor] := by
        simp [walkPages, h]
      rw [hw] at hi
      simp at hi

theorem convcache_foldl_mono (convs : List SlackConversation)
    (acc : List (String × SlackConversation)) (k : String)
    (h : (alookup acc k).isSome = true) :
    (alookup (convs.foldl (fun a conv => aset a conv.id conv) acc) k).isSome = true := by
  induction convs generalizing acc with
  | nil => simpa using h
  | cons c rest ih =>
    simp only [List.foldl_cons]
    exact ih _ (alookup_aset_isSome_mono _ _ _ _ h)

theorem convcache_foldl_mem (convs : List SlackConversation)
    (acc : List (String × SlackConversation)) (c : SlackConversation) (hc : c ∈ convs) :
    (alookup (convs.foldl (fun a conv => aset a conv.id conv) acc) c.id).isSome = true := by
  induction convs generalizing acc with
  | nil => simp at hc
  | cons hd rest ih =>
    simp only [List.foldl_cons]
    rcases List.mem_cons.mp hc with he | hm
    · subst he
      exact convcache_foldl_mono rest _ _ (by rw [alookup_aset_self]; rfl)
    · exact ih _ hm

theorem lrcache_foldl_mono (convs : List SlackConversation)
    (acc : List (String × String)) (k : String)
    (h : (alookup acc k).isSome = true) :
    (alookup (convs.foldl
        (fun a conv =>
          match conv.last_read with
          | some lr => if lr != "" then aset a conv.id lr else a
          | none => a)
        acc) k).isSome = true := by
  induction convs generalizing acc with
  | nil => simpa using h
  | cons c rest ih =>
    simp only [List.foldl_cons]
    refine ih _ ?_
    cases hlr : c.last_read with
    | none => simpa using h
    | some lr =>
      by_cases he : lr != ""
      · simp only [he, if_pos]
        exact alookup_aset_isSome_mono _ _ _ _ h
      · simpa [he] using h

theorem lrcache_foldl_mem (convs : List SlackConversation)
    (acc : List (String × String)) (c : SlackConversation) (hc : c ∈ convs)
    (ht : strTruthy c.last_read = true) :
    (alookup (convs.foldl
        (fun a conv =>
          match conv.last_read with
          | some lr => if lr != "" then aset a conv.id lr else a
          | none => a)
        acc) c.id).isSome = true := by
  induction convs generalizing acc with
  | nil => simp at hc
  | cons hd rest ih =>
    simp only [List.foldl_cons]
    rcases List.mem_cons.mp hc with he | hm
    · subst he
      cases hlr : c.last_read with
      | none => rw [hlr] at ht; simp [strTruthy] at ht
      | some lr =>
        rw [hlr] at ht
        have hne : lr != "" := by simpa [strTruthy] using ht
        simp only [hne, if_pos]
        exact lrcache_foldl_mono rest _ _ (by rw [alookup_aset_self]; rfl)
    · exact ih _ hm

theorem walk_convcache_mono (server : Option String → ListPage) :
    ∀ (fuel : Nat) (cursor : Option String) (st : PaginationState) (k : String),
      (alookup st.conversations_cache k).isSome = true →
      (alookup (list_conversations_walk server fuel cursor st).conversations_cache k).isSome
        = true := by
  intro fuel
  induction fuel with
  | zero => intro cursor st k h; simpa [list_conversations_walk] using h
  | succ fuel ih =>
    intro cursor st k h
    simp only [list_conversations_walk]
    by_cases hc : strTruthy (server cursor).next_cursor
    · simp only [hc, if_pos]
      exact ih _ _ _ (convcache_foldl_mono _ _ _ h)
    · simp only [hc, if_neg, not_false_iff]
      exact convcache_foldl_mono _ _ _ h

theorem walk_lrcache_mono (server : Option String → ListPage) :
    ∀ (fuel : Nat) (cursor : Option String) (st : PaginationState) (k : String),
      (alookup st.last_read_cache k).isSome = true →
      (alookup (list_conversations_walk server fuel cursor st).last_read_cache k).isSome
        = true := by
  intro fuel
  induction fuel with
  | zero => intro cursor st k h; simpa [list_conversations_walk] using h
  | succ fuel ih =>
    intro cursor st k h
    simp only [list_conversations_walk]
    by_cases hc : strTruthy (server cursor).next_cursor
    · simp only [hc, if_pos]
      exact ih _ _ _ (lrcache_foldl_mono _ _ _ h)
    · simp only [hc, if_neg, not_false_iff]
      exact lrcache_foldl_mono _ _ _ h

theorem walk_convcache_covers (server : Option String → ListPage) :
    ∀ (fuel : Nat) (cursor : Option String) (st : PaginationState) (c : SlackConversation),
      c ∈ (walkPages server fuel cursor).flatMap (fun p => p.channels) →
      (alookup (list_conversations_walk server fuel cursor st).conversations_cache c.id).isSome
        = true := by
  intro fuel
  induction fuel with
  | zero => intro cursor st c hc; simp [walkPages] at hc
  | succ fuel ih =>
    intro cursor st c hc
    by_cases h : strTruthy (server cursor).next_cursor
    · have hw : walkPages server (fuel + 1) cursor =
          server cursor :: walkPages server fuel (server cursor).next_cursor := by
        simp [walkPages, h]
      have hwalk : list_conversations_walk server (fuel + 1) cursor st =
          list_conversations_walk server fuel (server cursor).next_cursor
            (cachePage st (server cursor)) := by
        simp [list_conversations_walk, h]
      rw [hw] at hc
      rw [hwalk]
      simp only [List.flatMap_cons, List.mem_append] at hc
      rcases hc with hpage | hrest
      · exact walk_convcache_mono server _ _ _ _ (convcache_foldl_mem _ _ _ hpage)
      · exact ih _ _ _ hrest
    · have hw : walkPages server (fuel + 1) cursor = [server cursor] := by
        simp [walkPages, h]
      have hwalk : list_conversations_walk server (fuel + 1) cursor st =
          cachePage st (server cursor) := by
        simp [list_conversations_walk, h]
      rw [hw] at hc
      rw [hwalk]
      simp only [List.flatMap_cons, List.flatMap_nil, List.append_nil] at hc
      exact convcache_foldl_mem _ _ _ hc

theorem walk_lrcache_covers (server : Option String → ListPage) :
    ∀ (fuel : Nat) (cursor : Option String) (st : PaginationState) (c : SlackConversation),
      c ∈ (walkPages server fuel cursor).flatMap (fun p => p.channels) →
      strTruthy c.last_read = true →
      (alookup (list_conversations_walk server fuel cursor st).last_read_cache c.id).isSome
        = true := by
  intro fuel
  induction fuel with
  | zero => intro cursor st c hc _; simp [walkPages] at hc
  | succ fuel ih =>
    intro cursor st c hc ht
    by_cases h : strTruthy (server cursor).next_cursor
    · have hw : walkPages server (fuel + 1) cursor =
          server cursor :: walkPages server fuel (server cursor).next_cursor := by
        simp [walkPages, h]
      have hwalk : list_conversations_walk server (fuel + 1) cursor st =
          list_conversations_walk server fuel (server cursor).next_cursor
            (cachePage st (server cursor)) := by
        simp [list_conversations_walk, h]
      rw [hw] at hc
      rw [hwalk]
      simp only [List.flatMap_cons, List.mem_append] at hc
      rcases hc with hpage | hrest
      · exact walk_lrcache_mono server _ _ _ _ (lrcache_foldl_mem _ _ _ hpage ht)
      · exact ih _ _ _ hrest ht
    · have hw : walkPages server (fuel + 1) cursor = [server cursor] := by
        simp [walkPages, h]
      have hwalk : list_conversations_walk server (fuel + 1) cursor st =
          cachePage st (server cursor) := by
        simp [list_conversations_walk, h]
      rw [hw] at hc
      rw [hwalk]
      simp only [List.flatMap_cons, List.flatMap_nil, List.append_nil] at hc
      exact lrcache_foldl_mem _ _ _ hc ht

/-- C7 (spec-modelled max_pages bound): the paginated listing walk visits the
pages served for the advancing cursor; its result is exactly the concatenation
of the visited pages' channels; it visits at most max_pages pages (finite
termination under the page budget) and stops exactly when either the budget is
reached or the last visited page carries a falsy continuation cursor, every
earlier page having carried a truthy cursor; and every accumulated conversation
is in the conversation cache, with its truthy last_read in the last-read
cache. -/
theorem c7_pagination :
    ∀ (server : Option String → ListPage) (max_pages : Nat),
      (list_conversations_paged server max_pages).visited =
        walkPages server max_pages none ∧
      (list_conversations_paged server max_pages).conversations =
        (walkPages server max_pages none).flatMap (fun p => p.channels) ∧
      (walkPages server max_pages none).length ≤ max_pages ∧
      ((walkPages server max_pages none).length = max_pages ∨
        ∃ p, (walkPages server max_pages none).getLast? = some p ∧
          strTruthy p.next_cursor = false) ∧
      (∀ (i : Nat), i + 1 < (walkPages server max_pages none).length →
        ∃ p, (walkPages server max_pages none)[i]? = some p ∧
          strTruthy p.next_cursor = true) ∧
      (∀ c, c ∈ (list_conversations_paged server max_pages).conversations →
        (alookup (list_conversations_paged server max_pages).conversations_cache
          c.id).isSome = true) ∧
      (∀ c, c ∈ (list_conversations_paged server max_pages).conversations →
        strTruthy c.last_read = true →
        (alookup (list_conversations_paged server max_pages).last_read_cache
          c.id).isSome = true) := by
  intro server max_pages
  refine ⟨?_, ?_, walkPages_length_le server max_pages none,
    walkPages_stop server max_pages none,
    walkPages_inner_truthy server max_pages none, ?_, ?_⟩
  · simpa [list_conversations_paged] using
      walk_visited server max_pages none ⟨[], [], [], []⟩
  · simpa [list_conversations_paged] using
      walk_conversations server max_pages none ⟨[], [], [], []⟩
  · intro c hc
    have hc' : c ∈ (walkPages server max_pages none).flatMap (fun p => p.channels) := by
      have hw := walk_conversations server max_pages none ⟨[], [], [], []⟩
      simp only [list_conversations_paged] at hc
      rw [hw] at hc
      simp only [List.nil_append] at hc
      exact hc
    exact walk_convcache_covers server max_pages none ⟨[], [], [], []⟩ c hc'
  · intro c hc ht
    have hc' : c ∈ (walkPages server max_pages none).flatMap (fun p => p.channels) := by
      have hw := walk_conversations server max_pages none ⟨[], [], [], []⟩
      simp only [list_conversations_paged] at hc
      rw [hw] at hc
      simp only [List.nil_append] at hc
      exact hc
    exact walk_lrcache_covers server max_pages none ⟨[], [], [], []⟩ c hc' ht

/-- Witness for C7: the single page's conversation lands in the cache. -/
theorem c7_pagination_witness :
    (alookup (list_conversations_paged c7Server 3).conversations_cache "X").isSome
      = true :=
  (c7_pagination c7Server 3).2.2.2.2.2.1 c7Conv (by decide)

/-! ### More association-list lemmas (keys and membership) -/

theorem alookup_some_mem {α : Type} (l : List (String × α)) (k : String) (v : α)
    (h : alookup l k = some v) : (k, v) ∈ l := by
  induction l with
  | nil => simp [alookup] at h
  | cons hd tl ih =>
    obtain ⟨k0, v0⟩ := hd
    by_cases h0 : k0 = k
    · subst h0
      simp only [alookup, if_pos] at h
      simp only [Option.some.injEq] at h
      subst h
      exact List.mem_cons_self _ _
    · simp only [alookup, h0, if_neg, not_false_iff] at h
      exact List.mem_cons_of_mem _ (ih h)

theorem alookup_isSome_of_mem_keys {α : Type} (l : List (String × α)) (k : String)
    (h : k ∈ l.map (fun p => p.1)) : (alookup l k).isSome = true := by
  induction l with
  | nil => simp at h
  | cons hd tl ih =>
    obtain ⟨k0, v0⟩ := hd
    by_cases h0 : k0 = k
    · subst h0
      simp [alookup]
    · simp only [List.map_cons, List.mem_cons] at h
      rcases h with he | hm
      · exact absurd he.symm h0
      · simp only [alookup, h0, if_neg, not_false_iff]
        exact ih hm

theorem alookup_eq_none_of_not_mem_keys {α : Type} (l : List (String × α)) (k : String)
    (h : k ∉ l.map (fun p => p.1)) : alookup l k = none := by
  cases hl : alookup l k with
  | none => rfl
  | some v =>
    have := List.mem_map_of_mem (fun p => p.1) (alookup_some_mem l k v hl)
    exact absurd this h

theorem not_mem_keys_of_alookup_eq_none {α : Type} (l : List (String × α)) (k : String)
    (h : alookup l k = none) : k ∉ l.map (fun p => p.1) := by
  intro hm
  have := alookup_isSome_of_mem_keys l k hm
  rw [h] at this
  simp at this

/-! ### Theorems: Workspace Manager reload (C8) -/

theorem removePass_keeps (newWs : List (String × WorkspaceConfig)) (name : String)
    (w : WorkspaceConfig) (hname : alookup newWs name = some w) :
    ∀ (clients : List (String × ClientInst)),
      alookup (removePass newWs clients).1 name = alookup clients name ∧
      name ∉ (removePass newWs clients).2.2 := by
  intro clients
  induction clients with
  | nil => simp [removePass, alookup]
  | cons hd tl ih =>
    obtain ⟨n0, c0⟩ := hd
    by_cases hkeep : (alookup newWs n0).isSome = true
    · simp only [removePass]
      rw [if_pos hkeep]
      by_cases h0 : n0 = name
      · subst h0
        exact ⟨by simp [alookup], ih.2⟩
      · constructor
        · simp only [alookup, h0, if_neg, not_false_iff]
          exact ih.1
        · exact ih.2
    · have h0 : n0 ≠ name := by
        intro he
        subst he
        rw [hname] at hkeep
        exact hkeep rfl
      simp only [removePass]
      rw [if_neg hkeep]
      constructor
      · rw [ih.1]
        simp [alookup, h0]
      · intro hmem
        rcases List.mem_cons.mp hmem with he | hm
        · exact h0 he.symm
        · exact ih.2 hm

theorem removePass_none_of_none (newWs : List (String × WorkspaceConfig)) (name : String) :
    ∀ (clients : List (String × ClientInst)), alookup clients name = none →
      alookup (removePass newWs clients).1 name = none := by
  intro clients
  induction clients with
  | nil => intro _; simp [removePass, alookup]
  | cons hd tl ih =>
    intro h
    obtain ⟨n0, c0⟩ := hd
    by_cases h0 : n0 = name
    · subst h0
      simp [alookup] at h
    · simp only [alookup, h0, if_neg, not_false_iff] at h
      by_cases hkeep : (alookup newWs n0).isSome = true
      · simp only [removePass]
        rw [if_pos hkeep]
        simp only [alookup, h0, if_neg, not_false_iff]
        exact ih h
      · simp only [removePass]
        rw [if_neg hkeep]
        exact ih h

theorem removePass_removes (newWs : List (String × WorkspaceConfig)) (name : String)
    (hname : alookup newWs name = none) :
    ∀ (clients : List (String × ClientInst)) (c : ClientInst),
      (clients.map (fun p => p.1)).Nodup →
      alookup clients name = some c →
      alookup (removePass newWs clients).1 name = none ∧
      c.serial ∈ (removePass newWs clients).2.1 ∧
      name ∈ (removePass newWs clients).2.2 := by
  intro clients
  induction clients with
  | nil => intro c _ hc; simp [alookup] at hc
  | cons hd tl ih =>
    intro c hnodup hc
    obtain ⟨n0, c0⟩ := hd
    simp only [List.map_cons, List.nodup_cons] at hnodup
    obtain ⟨hn0, hnodup'⟩ := hnodup
    by_cases h0 : n0 = name
    · subst h0
      simp only [alookup, if_pos] at hc
      simp only [Option.some.injEq] at hc
      subst hc
      have hdrop : ¬ ((alookup newWs n0).isSome = true) := by
        rw [hname]; simp
      simp only [removePass]
      rw [if_neg hdrop]
      refine ⟨?_, List.mem_cons_self _ _, List.mem_cons_self _ _⟩
      exact removePass_none_of_none newWs n0 tl (alookup_eq_none_of_not_mem_keys tl n0 hn0)
    · simp only [alookup, h0, if_neg, not_false_iff] at hc
      have hrest := ih c hnodup' hc
      by_cases hkeep : (alookup newWs n0).isSome = true
      · simp only [removePass]
        rw [if_pos hkeep]
        refine ⟨?_, hrest.2.1, hrest.2.2⟩
        simp only [alookup, h0, if_neg, not_false_iff]
        exact hrest.1
      · simp only [removePass]
        rw [if_neg hkeep]
        exact ⟨hrest.1, List.mem_cons_of_mem _ hrest.2.1, List.mem_cons_of_mem _ hrest.2.2⟩

theorem addUpdatePass_frame (oldWs : List (String × WorkspaceConfig)) (name : String) :
    ∀ (lst : List (String × WorkspaceConfig)) (clients : List (String × ClientInst))
      (serial : Nat) (closed : List Nat),
      name ∉ lst.map (fun p => p.1) →
      alookup (addUpdatePass oldWs lst clients serial closed).1 name =
        alookup clients name ∧
      name ∉ (addUpdatePass oldWs lst clients serial closed).2.2.2.1 ∧
      name ∉ (addUpdatePass oldWs lst clients serial closed).2.2.2.2 := by
  intro lst
  induction lst with
  | nil => intro clients serial closed _; simp [addUpdatePass]
  | cons hd rest ih =>
    intro clients serial closed hname
    obtain ⟨n0, w0⟩ := hd
    simp only [List.map_cons, List.mem_cons] at hname
    push_neg at hname
    obtain ⟨hne, hrest⟩ := hname
    cases hcl : alookup clients n0 with
    | none =>
      simp only [addUpdatePass, hcl]
      have r := ih (aset clients n0 ⟨serial, w0⟩) (serial + 1) closed hrest
      refine ⟨?_, ?_, r.2.2⟩
      · rw [r.1]
        exact alookup_aset_ne _ _ _ _ (fun he => hne he.symm)
      · intro hmem
        rcases List.mem_cons.mp hmem with he | hm
        · exact hne he
        · exact r.2.1 hm
    | some old =>
      cases hold : alookup oldWs n0 with
      | none =>
        simp only [addUpdatePass, hcl, hold]
        exact ih clients serial closed hrest
      | some ows =>
        simp only [addUpdatePass, hcl, hold]
        by_cases hcred :
            (w0.xoxc_token != ows.xoxc_token || w0.xoxd_cookie != ows.xoxd_cookie) = true
        · rw [if_pos hcred]
          have r := ih (aset clients n0 ⟨serial, w0⟩) (serial + 1)
            (closed ++ [old.serial]) hrest
          refine ⟨?_, r.2.1, ?_⟩
          · rw [r.1]
            exact alookup_aset_ne _ _ _ _ (fun he => hne he.symm)
          · intro hmem
            rcases List.mem_cons.mp hmem with he | hm
            · exact hne he
            · exact r.2.2 hm
        · rw [if_neg hcred]
          exact ih clients serial closed hrest

theorem addUpdatePass_closed_mono (oldWs : List (String × WorkspaceConfig)) :
    ∀ (lst : List (String × WorkspaceConfig)) (clients : List (String × ClientInst))
      (serial : Nat) (closed : List Nat) (x : Nat),
      x ∈ closed → x ∈ (addUpdatePass oldWs lst clients serial closed).2.2.1 := by
  intro lst
  induction lst with
  | nil => intro clients serial closed x hx; simpa [addUpdatePass] using hx
  | cons hd rest ih =>
    intro clients serial closed x hx
    obtain ⟨n0, w0⟩ := hd
    cases hcl : alookup clients n0 with
    | none =>
      simp only [addUpdatePass, hcl]
      exact ih _ _ _ _ hx
    | some old =>
      cases hold : alookup oldWs n0 with
      | none =>
        simp only [addUpdatePass, hcl, hold]
        exact ih _ _ _ _ hx
      | some ows =>
        simp only [addUpdatePass, hcl, hold]
        by_cases hcred :
            (w0.xoxc_token != ows.xoxc_token || w0.xoxd_cookie != ows.xoxd_cookie) = true
        · rw [if_pos hcred]
          exact ih _ _ _ _ (List.mem_append_left _ hx)
        · rw [if_neg hcred]
          exact ih _ _ _ _ hx

theorem addUpdatePass_adds (oldWs : List (String × WorkspaceConfig)) :
    ∀ (lst : List (String × WorkspaceConfig)) (clients : List (String × ClientInst))
      (serial : Nat) (closed : List Nat) (name : String) (ws : WorkspaceConfig),
      (lst.map (fun p => p.1)).Nodup → (name, ws) ∈ lst →
      alookup clients name = none →
      ∃ s, serial ≤ s ∧
        alookup (addUpdatePass oldWs lst clients serial closed).1 name = some ⟨s, ws⟩ ∧
        name ∈ (addUpdatePass oldWs lst clients serial closed).2.2.2.1 ∧
        name ∉ (addUpdatePass oldWs lst clients serial closed).2.2.2.2 := by
  intro lst
  induction lst with
  | nil => intro clients serial closed name ws _ hmem; simp at hmem
  | cons hd rest ih =>
    intro clients serial closed name ws hnodup hmem hnone
    obtain ⟨n0, w0⟩ := hd
    simp only [List.map_cons, List.nodup_cons] at hnodup
    obtain ⟨hn0, hnodup'⟩ := hnodup
    rcases List.mem_cons.mp hmem with he | hm
    · have hne : name = n0 := congrArg Prod.fst he
      have hwe : ws = w0 := congrArg Prod.snd he
      subst hne; subst hwe
      simp only [addUpdatePass, hnone]
      have hfr := addUpdatePass_frame oldWs name rest
        (aset clients name ⟨serial, ws⟩) (serial + 1) closed hn0
      refine ⟨serial, le_refl _, ?_, List.mem_cons_self _ _, hfr.2.2⟩
      rw [hfr.1, alookup_aset_self]
    · have hne : n0 ≠ name := by
        intro he
        subst he
        exact hn0 (List.mem_map_of_mem (fun p => p.1) hm)
      cases hcl : alookup clients n0 with
      | none =>
        simp only [addUpdatePass, hcl]
        have hnone' : alookup (aset clients n0 ⟨serial, w0⟩) name = none := by
          rw [alookup_aset_ne _ _ _ _ hne]
          exact hnone
        obtain ⟨s, hs, hlook, hadd, hupd⟩ :=
          ih (aset clients n0 ⟨serial, w0⟩) (serial + 1) closed name ws hnodup' hm hnone'
        refine ⟨s, by omega, hlook, List.mem_cons_of_mem _ hadd, ?_⟩
        exact hupd
      | some old =>
        cases hold : alookup oldWs n0 with
        | none =>
          simp only [addUpdatePass, hcl, hold]
          exact ih clients serial closed name ws hnodup' hm hnone
        | some ows =>
          simp only [addUpdatePass, hcl, hold]
          by_cases hcred :
              (w0.xoxc_token != ows.xoxc_token || w0.xoxd_cookie != ows.xoxd_cookie) = true
          · rw [if_pos hcred]
            have hnone' : alookup (aset clients n0 ⟨serial, w0⟩) name = none := by
              rw [alookup_aset_ne _ _ _ _ hne]
              exact hnone
            obtain ⟨s, hs, hlook, hadd, hupd⟩ := ih (aset clients n0 ⟨serial, w0⟩)
              (serial + 1) (closed ++ [old.serial]) name ws hnodup' hm hnone'
            refine ⟨s, by omega, hlook, hadd, ?_⟩
            intro hmem2
            rcases List.mem_cons.mp hmem2 with he2 | hm2
            · exact hne he2.symm
            · exact hupd hm2
          · rw [if_neg hcred]
            exact ih clients serial closed name ws hnodup' hm hnone

theorem addUpdatePass_updates (oldWs : List (String × WorkspaceConfig)) :
    ∀ (lst : List (String × WorkspaceConfig)) (clients : List (String × ClientInst))
      (serial : Nat) (closed : List Nat) (name : String) (ws : WorkspaceConfig)
      (old : ClientInst) (ows : WorkspaceConfig),
      (lst.map (fun p => p.1)).Nodup → (name, ws) ∈ lst →
      alookup clients name = some old →
      alookup oldWs name = some ows →
      (ws.xoxc_token ≠ ows.xoxc_token ∨ ws.xoxd_cookie ≠ ows.xoxd_cookie) →
      ∃ s, serial ≤ s ∧
        alookup (addUpdatePass oldWs lst clients serial closed).1 name = some ⟨s, ws⟩ ∧
        old.serial ∈ (addUpdatePass oldWs lst clients serial closed).2.2.1 ∧
        name ∈ (addUpdatePass oldWs lst clients serial closed).2.2.2.2 ∧
        name ∉ (addUpdatePass oldWs lst clients serial closed).2.2.2.1 := by
  intro lst
  induction lst with
  | nil => intro clients serial closed name ws old ows _ hmem; simp at hmem
  | cons hd rest ih =>
    intro clients serial closed name ws old ows hnodup hmem hsome hows hcreds
    obtain ⟨n0, w0⟩ := hd
    simp only [List.map_cons, List.nodup_cons] at hnodup
    obtain ⟨hn0, hnodup'⟩ := hnodup
    rcases List.mem_cons.mp hmem with he | hm
    · have hne : name = n0 := congrArg Prod.fst he
      have hwe : ws = w0 := congrArg Prod.snd he
      subst hne; subst hwe
      have hcred : (ws.xoxc_token != ows.xoxc_token || ws.xoxd_cookie != ows.xoxd_cookie)
          = true := by
        rcases hcreds with h | h
        · simp [h]
        · simp [h]
      simp only [addUpdatePass, hsome, hows]
      rw [if_pos hcred]
      have hfr := addUpdatePass_frame oldWs name rest
        (aset clients name ⟨serial, ws⟩) (serial + 1) (closed ++ [old.serial]) hn0
      refine ⟨serial, le_refl _, ?_, ?_, List.mem_cons_self _ _, hfr.2.1⟩
      · rw [hfr.1, alookup_aset_self]
      · exact addUpdatePass_closed_mono oldWs rest _ _ _ _
          (List.mem_append_right _ (List.mem_singleton.mpr rfl))
    · have hne : n0 ≠ name := by
        intro he
        subst he
        exact hn0 (List.mem_map_of_mem (fun p => p.1) hm)
      cases hcl : alookup clients n0 with
      | none =>
        simp only [addUpdatePass, hcl]
        have hsome' : alookup (aset clients n0 ⟨serial, w0⟩) name = some old := by
          rw [alookup_aset_ne _ _ _ _ hne]
          exact hsome
        obtain ⟨s, hs, hlook, hcl2, hupd, hadd⟩ := ih (aset clients n0 ⟨serial, w0⟩)
          (serial + 1) closed name ws old ows hnodup' hm hsome' hows hcreds
        refine ⟨s, by omega, hlook, hcl2, hupd, ?_⟩
        intro hmem2
        rcases List.mem_cons.mp hmem2 with he2 | hm2
        · exact hne he2.symm
        · exact hadd hm2
      | some old0 =>
        cases hold : alookup oldWs n0 with
        | none =>
          simp only [addUpdatePass, hcl, hold]
          exact ih clients serial closed name ws old ows hnodup' hm hsome hows hcreds
        | some ows0 =>
          simp only [addUpdatePass, hcl, hold]
          by_cases hcred :
              (w0.xoxc_token != ows0.xoxc_token || w0.xoxd_cookie != ows0.xoxd_cookie) = true
          · rw [if_pos hcred]
            have hsome' : alookup (aset clients n0 ⟨serial, w0⟩) name = some old := by
              rw [alookup_aset_ne _ _ _ _ hne]
              exact hsome
            obtain ⟨s, hs, hlook, hcl2, hupd, hadd⟩ := ih (aset clients n0 ⟨serial, w0⟩)
              (serial + 1) (closed ++ [old0.serial]) name ws old ows hnodup' hm hsome'
              hows hcreds
            exact ⟨s, by omega, hlook, hcl2, List.mem_cons_of_mem _ hupd, hadd⟩
          · rw [if_neg hcred]
            exact ih clients serial closed name ws old ows hnodup' hm hsome hows hcreds

theorem addUpdatePass_keeps (oldWs : List (String × WorkspaceConfig)) :
    ∀ (lst : List (String × WorkspaceConfig)) (clients : List (String × ClientInst))
      (serial : Nat) (closed : List Nat) (name : String) (ws : WorkspaceConfig)
      (old : ClientInst) (ows : WorkspaceConfig),
      (lst.map (fun p => p.1)).Nodup → (name, ws) ∈ lst →
      alookup clients name = some old →
      alookup oldWs name = some ows →
      ws.xoxc_token = ows.xoxc_token → ws.xoxd_cookie = ows.xoxd_cookie →
      alookup (addUpdatePass oldWs lst clients serial closed).1 name = some old ∧
      name ∉ (addUpdatePass oldWs lst clients serial closed).2.2.2.1 ∧
      name ∉ (addUpdatePass oldWs lst clients serial closed).2.2.2.2 := by
  intro lst
  induction lst with
  | nil => intro clients serial closed name ws old ows _ hmem; simp at hmem
  | cons hd rest ih =>
    intro clients serial closed name ws old ows hnodup hmem hsome hows htok hcook
    obtain ⟨n0, w0⟩ := hd
    simp only [List.map_cons, List.nodup_cons] at hnodup
    obtain ⟨hn0, hnodup'⟩ := hnodup
    rcases List.mem_cons.mp hmem with he | hm
    · have hne : name = n0 := congrArg Prod.fst he
      have hwe : ws = w0 := congrArg Prod.snd he
      subst hne; subst hwe
      have hcred : ¬ ((ws.xoxc_token != ows.xoxc_token || ws.xoxd_cookie != ows.xoxd_cookie)
          = true) := by
        simp [htok, hcook]
      simp only [addUpdatePass, hsome, hows]
      rw [if_neg hcred]
      have hfr := addUpdatePass_frame oldWs name rest clients serial closed hn0
      exact ⟨by rw [hfr.1]; exact hsome, hfr.2.1, hfr.2.2⟩
    · have hne : n0 ≠ name := by
        intro he
        subst he
        exact hn0 (List.mem_map_of_mem (fun p => p.1) hm)
      cases hcl : alookup clients n0 with
      | none =>
        simp only [addUpdatePass, hcl]
        have hsome' : alookup (aset clients n0 ⟨serial, w0⟩) name = some old := by
          rw [alookup_aset_ne _ _ _ _ hne]
          exact hsome
        obtain ⟨hlook, hadd, hupd⟩ := ih (aset clients n0 ⟨serial, w0⟩)
          (serial + 1) closed name ws old ows hnodup' hm hsome' hows htok hcook
        refine ⟨hlook, ?_, hupd⟩
        intro hmem2
        rcases List.mem_cons.mp hmem2 with he2 | hm2
        · exact hne he2.symm
        · exact hadd hm2
      | some old0 =>
        cases hold : alookup oldWs n0 with
        | none =>
          simp only [addUpdatePass, hcl, hold]
          exact ih clients serial closed name ws old ows hnodup' hm hsome hows htok hcook
        | some ows0 =>
          simp only [addUpdatePass, hcl, hold]
          by_cases hcred :
              (w0.xoxc_token != ows0.xoxc_token || w0.xoxd_cookie != ows0.xoxd_cookie) = true
          · rw [if_pos hcred]
            have hsome' : alookup (aset clients n0 ⟨serial, w0⟩) name = some old := by
              rw [alookup_aset_ne _ _ _ _ hne]
              exact hsome
            obtain ⟨hlook, hadd, hupd⟩ := ih (aset clients n0 ⟨serial, w0⟩)
              (serial + 1) (closed ++ [old0.serial]) name ws old ows hnodup' hm hsome'
              hows htok hcook
            refine ⟨hlook, hadd, ?_⟩
            intro hmem2
            rcases List.mem_cons.mp hmem2 with he2 | hm2
            · exact hne he2.symm
            · exact hupd hm2
          · rw [if_neg hcred]
            exact ih clients serial closed name ws old ows hnodup' hm hsome hows htok hcook

/-- C8: for every reload with a successfully loaded new configuration (with
duplicate-free tenant names, and the manager invariantly holding one client per
configured tenant): tenants absent from the new set have their client closed
and removed and are reported in `removed`; tenants newly present get a freshly
constructed client (a serial the manager had never allocated) and are reported
in `added`; tenants present in both whose credential pair (token or cookie)
changed have the old client closed and a fresh client constructed and are
reported in `updated`; and tenants whose credential pair is unchanged retain
their original client object — the very same instance, not reconstructed — and
appear in none of the three lists. -/
theorem c8_reload_config :
    ∀ (st : ManagerState) (new : Config),
      (st.clients.map (fun p => p.1)).Nodup →
      (new.workspaces.map (fun p => p.1)).Nodup →
      (∀ (name : String) (c : ClientInst),
        alookup st.clients name = some c →
        alookup new.workspaces name = none →
        alookup (reload_config st (.ok new)).1.clients name = none ∧
        c.serial ∈ (reload_config st (.ok new)).1.closed ∧
        name ∈ (reload_config st (.ok new)).2.removed) ∧
      (∀ (name : String) (ws : WorkspaceConfig),
        alookup st.clients name = none →
        alookup new.workspaces name = some ws →
        (∃ s, st.next_serial ≤ s ∧
          alookup (reload_config st (.ok new)).1.clients name = some ⟨s, ws⟩) ∧
        name ∈ (reload_config st (.ok new)).2.added ∧
        name ∉ (reload_config st (.ok new)).2.updated ∧
        name ∉ (reload_config st (.ok new)).2.removed) ∧
      (∀ (name : String) (c : ClientInst) (ows ws : WorkspaceConfig),
        alookup st.clients name = some c →
        alookup st.config.workspaces name = some ows →
        alookup new.workspaces name = some ws →
        (ws.xoxc_token ≠ ows.xoxc_token ∨ ws.xoxd_cookie ≠ ows.xoxd_cookie) →
        (∃ s, st.next_serial ≤ s ∧
          alookup (reload_config st (.ok new)).1.clients name = some ⟨s, ws⟩) ∧
        c.serial ∈ (reload_config st (.ok new)).1.closed ∧
        name ∈ (reload_config st (.ok new)).2.updated ∧
        name ∉ (reload_config st (.ok new)).2.added ∧
        name ∉ (reload_config st (.ok new)).2.removed) ∧
      (∀ (name : String) (c : ClientInst) (ows ws : WorkspaceConfig),
        alookup st.clients name = some c →
        alookup st.config.workspaces name = some ows →
        alookup new.workspaces name = some ws →
        ws.xoxc_token = ows.xoxc_token → ws.xoxd_cookie = ows.xoxd_cookie →
        alookup (reload_config st (.ok new)).1.clients name = some c ∧
        name ∉ (reload_config st (.ok new)).2.added ∧
        name ∉ (reload_config st (.ok new)).2.updated ∧
        name ∉ (reload_config st (.ok new)).2.removed) := by
  intro st new hnodupC hnodupN
  have hclients : (reload_config st (.ok new)).1.clients =
      (addUpdatePass st.config.workspaces new.workspaces
        (removePass new.workspaces st.clients).1 st.next_serial
        (st.closed ++ (removePass new.workspaces st.clients).2.1)).1 := rfl
  have hclosed : (reload_config st (.ok new)).1.closed =
      (addUpdatePass st.config.workspaces new.workspaces
        (removePass new.workspaces st.clients).1 st.next_serial
        (st.closed ++ (removePass new.workspaces st.clients).2.1)).2.2.1 := rfl
  have hadded : (reload_config st (.ok new)).2.added =
      (addUpdatePass st.config.workspaces new.workspaces
        (removePass new.workspaces st.clients).1 st.next_serial
        (st.closed ++ (removePass new.workspaces st.clients).2.1)).2.2.2.1 := rfl
  have hupdated : (reload_config st (.ok new)).2.updated =
      (addUpdatePass st.config.workspaces new.workspaces
        (removePass new.workspaces st.clients).1 st.next_serial
        (st.closed ++ (removePass new.workspaces st.clients).2.1)).2.2.2.2 := rfl
  have hremoved : (reload_config st (.ok new)).2.removed =
      (removePass new.workspaces st.clients).2.2 := rfl
  refine ⟨?_, ?_, ?_, ?_⟩
  · intro name c hc hn
    obtain ⟨hrl, hrs, hrm⟩ := removePass_removes new.workspaces name hn st.clients c
      hnodupC hc
    have hnk : name ∉ new.workspaces.map (fun p => p.1) :=
      not_mem_keys_of_alookup_eq_none _ _ hn
    have hfr := addUpdatePass_frame st.config.workspaces name new.workspaces
      (removePass new.workspaces st.clients).1 st.next_serial
      (st.closed ++ (removePass new.workspaces st.clients).2.1) hnk
    refine ⟨?_, ?_, ?_⟩
    · rw [hclients, hfr.1]
      exact hrl
    · rw [hclosed]
      exact addUpdatePass_closed_mono _ _ _ _ _ _ (List.mem_append_right _ hrs)
    · rw [hremoved]
      exact hrm
  · intro name ws hc hn
    obtain ⟨hkl, hkr⟩ := removePass_keeps new.workspaces name ws hn st.clients
    have hmem := alookup_some_mem _ _ _ hn
    have hnone' : alookup (removePass new.workspaces st.clients).1 name = none := by
      rw [hkl]; exact hc
    obtain ⟨s, hs, hlook, hadd, hupd⟩ := addUpdatePass_adds st.config.workspaces
      new.workspaces (removePass new.workspaces st.clients).1 st.next_serial
      (st.closed ++ (removePass new.workspaces st.clients).2.1) name ws hnodupN hmem hnone'
    refine ⟨⟨s, hs, ?_⟩, ?_, ?_, ?_⟩
    · rw [hclients]; exact hlook
    · rw [hadded]; exact hadd
    · rw [hupdated]; exact hupd
    · rw [hremoved]; exact hkr
  · intro name c ows ws hc hold hn hcreds
    obtain ⟨hkl, hkr⟩ := removePass_keeps new.workspaces name ws hn st.clients
    have hmem := alookup_some_mem _ _ _ hn
    have hsome' : alookup (removePass new.workspaces st.clients).1 name = some c := by
      rw [hkl]; exact hc
    obtain ⟨s, hs, hlook, hcl, hupd, hadd⟩ := addUpdatePass_updates st.config.workspaces
      new.workspaces (removePass new.workspaces st.clients).1 st.next_serial
      (st.closed ++ (removePass new.workspaces st.clients).2.1) name ws c ows hnodupN
      hmem hsome' hold hcreds
    refine ⟨⟨s, hs, ?_⟩, ?_, ?_, ?_, ?_⟩
    · rw [hclients]; exact hlook
    · rw [hclosed]; exact hcl
    · rw [hupdated]; exact hupd
    · rw [hadded]; exact hadd
    · rw [hremoved]; exact hkr
  · intro name c ows ws hc hold hn htok hcook
    obtain ⟨hkl, hkr⟩ := removePass_keeps new.workspaces name ws hn st.clients
    have hmem := alookup_some_mem _ _ _ hn
    have hsome' : alookup (removePass new.workspaces st.clients).1 name = some c := by
      rw [hkl]; exact hc
    obtain ⟨hlook, hadd, hupd⟩ := addUpdatePass_keeps st.config.workspaces
      new.workspaces (removePass new.workspaces st.clients).1 st.next_serial
      (st.closed ++ (removePass new.workspaces st.clients).2.1) name ws c ows hnodupN
      hmem hsome' hold htok hcook
    refine ⟨?_, ?_, ?_, ?_⟩
    · rw [hclients]; exact hlook
    · rw [hadded]; exact hadd
    · rw [hupdated]; exact hupd
    · rw [hremoved]; exact hkr

/-- Witness for C8 at a concrete reload: tenant "a" is unchanged and keeps its
original client instance (serial 0). -/
theorem c8_reload_config_witness :
    alookup (reload_config c8Old (.ok c8New)).1.clients "a" = some ⟨0, c8CfgA⟩ :=
  ((c8_reload_config c8Old c8New (by decide) (by decide)).2.2.2 "a" ⟨0, c8CfgA⟩
    c8CfgA c8CfgA rfl rfl rfl rfl rfl).1

/-! ### Theorems: the watermark sentinel in probe fetches (C2) -/

/-- C2 (code bug): probing the MPIM whose watermark is the all-zero sentinel
"0000000000.000000", check_dm_unread passes that sentinel as the `oldest`
range lower bound of the unread-count history fetch — the trace's third call —
even though the claim (and the source's own comment at get_unread.py lines
110-111, honoured by the retained-conversation path) says the sentinel must be
treated as absent. -/
theorem c2_sentinel_passed_as_oldest :
    (check_dm_unread c2World "G1").2 =
      [ApiCall.conv_info "G1", ApiCall.history "G1" none 1,
       ApiCall.history "G1" (some "0000000000.000000") 10] ∧
    ApiCall.history "G1" (some "0000000000.000000") 10 ∈ (check_dm_unread c2World "G1").2 := by
  constructor
  · rfl
  · rw [show (check_dm_unread c2World "G1").2 =
      [ApiCall.conv_info "G1", ApiCall.history "G1" none 1,
       ApiCall.history "G1" (some "0000000000.000000") 10] from rfl]
    simp

/-! ### Theorems: the detail-probe budget (C1) -/

/-- C1 counterexample: with the default configuration (scan budget
max_conversations_to_check = 20, max_dms_to_scan = 30) and 25 DM conversations
listed, one reconciliation invocation issues 25 conversations.info detail
probes — more than the configured scan budget of 20. The budget caps only how
many conversations get their unread history fetched, not the probes. -/
theorem c1_counterexample :
    countConvInfo (get_unread_for_workspace c1World "acme" false true false 5 20 30).2 = 25 ∧
    20 < 25 := by
  constructor
  · decide
  · decide

theorem countConvInfo_append (a b : List ApiCall) :
    countConvInfo (a ++ b) = countConvInfo a + countConvInfo b := by
  simp [countConvInfo, List.filter_append]

theorem countConvInfo_check_dm (w : UnreadWorld) (cid : String) :
    countConvInfo (check_dm_unread w cid).2 = 1 := by
  cases hci : w.conv_info cid with
  | error e => simp [check_dm_unread, hci, countConvInfo]
  | ok detailed =>
    simp only [check_dm_unread, hci]
    by_cases h1 : posCount detailed.unread_count_display = true
    · rw [if_pos h1]; rfl
    · rw [if_neg h1]
      by_cases h2 : posCount detailed.unread_count = true
      · rw [if_pos h2]; rfl
      · rw [if_neg h2]
        by_cases h3 : (detailed.is_mpim && strTruthy detailed.last_read) = true
        · rw [if_pos h3]
          cases hh : w.history cid none 1 with
          | error e => rfl
          | ok msgs =>
            cases msgs with
            | nil => rfl
            | cons m ms =>
              dsimp only
              by_cases h4 : pyStrLt (detailed.last_read.getD "") m.ts = true
              · rw [if_pos h4]
                cases hh2 : w.history cid (some (detailed.last_read.getD "")) 10 with
                | error e => rfl
                | ok unread_msgs => rfl
              · rw [if_neg h4]; rfl
        · rw [if_neg h3]; rfl

theorem countConvInfo_check_channel (w : UnreadWorld) (cid : String) :
    countConvInfo (check_channel_unread w cid).2 = 1 := by
  cases hci : w.conv_info cid with
  | error e => simp [check_channel_unread, hci, countConvInfo]
  | ok detailed =>
    simp only [check_channel_unread, hci]
    by_cases h1 : posCount detailed.unread_count_display = true
    · rw [if_pos h1]; rfl
    · rw [if_neg h1]
      by_cases h2 : posCount detailed.unread_count = true
      · rw [if_pos h2]; rfl
      · rw [if_neg h2]
        by_cases h3 : strTruthy detailed.last_read = true
        · rw [if_pos h3]
          cases hh : w.history cid none 1 with
          | error e => rfl
          | ok msgs =>
            cases msgs with
            | nil => rfl
            | cons m ms =>
              dsimp only
              by_cases h4 : pyStrLt (detailed.last_read.getD "") m.ts = true
              · rw [if_pos h4]
                cases hh2 : w.history cid (some (detailed.last_read.getD "")) 10 with
                | error e => rfl
                | ok unread_msgs =>
                  dsimp only
                  by_cases h5 : unread_msgs.isEmpty = true
                  · rw [if_pos h5]; rfl
                  · rw [if_neg h5]; rfl
              · rw [if_neg h4]; rfl
        · rw [if_neg h3]; rfl

theorem countConvInfo_probe_all
    (check : SlackConversation → Option (SlackConversation × Nat) × List ApiCall)
    (h : ∀ c, countConvInfo (check c).2 = 1) :
    ∀ (l : List SlackConversation),
      countConvInfo (probe_all check l).2 = l.length := by
  intro l
  induction l with
  | nil => rfl
  | cons c rest ih =>
    have htr : (probe_all check (c :: rest)).2 = (check c).2 ++ (probe_all check rest).2 :=
      rfl
    rw [htr, countConvInfo_append, h, ih, List.length_cons]
    omega

theorem countConvInfo_dm_retained (w : UnreadWorld) (uc : List (String × SlackUser))
    (mm : Nat) :
    ∀ (l : List (SlackConversation × Nat)) (ids : List String),
      countConvInfo (dm_retained_loop w uc mm l ids).2.2 = 0 := by
  intro l
  induction l with
  | nil => intro ids; rfl
  | cons p rest ih =>
    intro ids
    obtain ⟨conv, cnt⟩ := p
    simp only [dm_retained_loop]
    cases hh : w.history conv.id (sentinelFix conv.last_read) mm with
    | error e =>
      have : countConvInfo ([ApiCall.history conv.id (sentinelFix conv.last_read) mm] ++
          (dm_retained_loop w uc mm rest ids).2.2) = 0 := by
        rw [countConvInfo_append, ih]; rfl
      simpa using this
    | ok msgs =>
      cases msgs with
      | nil =>
        have : countConvInfo ([ApiCall.history conv.id (sentinelFix conv.last_read) mm] ++
            (dm_retained_loop w uc mm rest ids).2.2) = 0 := by
          rw [countConvInfo_append, ih]; rfl
        simpa using this
      | cons m ms =>
        have : countConvInfo ([ApiCall.history conv.id (sentinelFix conv.last_read) mm] ++
            (dm_retained_loop w uc mm rest
              (collect_author_ids (m :: ms) ids)).2.2) = 0 := by
          rw [countConvInfo_append, ih]; rfl
        simpa using this

theorem countConvInfo_channel_retained (w : UnreadWorld) (uc : List (String × SlackUser))
    (mm : Nat) :
    ∀ (l : List (SlackConversation × Nat)) (ids : List String),
      countConvInfo (channel_retained_loop w uc mm l ids).2.2 = 0 := by
  intro l
  induction l with
  | nil => intro ids; rfl
  | cons p rest ih =>
    intro ids
    obtain ⟨conv, cnt⟩ := p
    simp only [channel_retained_loop]
    cases hh : w.history conv.id (sentinelFix conv.last_read) mm with
    | error e =>
      have : countConvInfo ([ApiCall.history conv.id (sentinelFix conv.last_read) mm] ++
          (channel_retained_loop w uc mm rest ids).2.2) = 0 := by
        rw [countConvInfo_append, ih]; rfl
      simpa using this
    | ok msgs =>
      cases msgs with
      | nil =>
        have : countConvInfo ([ApiCall.history conv.id (sentinelFix conv.last_read) mm] ++
            (channel_retained_loop w uc mm rest ids).2.2) = 0 := by
          rw [countConvInfo_append, ih]; rfl
        simpa using this
      | cons m ms =>
        have : countConvInfo ([ApiCall.history conv.id (sentinelFix conv.last_read) mm] ++
            (channel_retained_loop w uc mm rest
              (collect_author_ids (m :: ms) ids)).2.2) = 0 := by
          rw [countConvInfo_append, ih]; rfl
        simpa using this

theorem countConvInfo_mentions_loop (w : UnreadWorld) (uc : List (String × SlackUser)) :
    ∀ (msgs : List SlackMessage) (crc : List (String × Option String))
      (acc : List MentionEntry),
      countConvInfo (mentions_loop w uc msgs crc acc).2 ≤ msgs.length := by
  intro msgs
  induction msgs with
  | nil => intro crc acc; simp [mentions_loop, countConvInfo]
  | cons msg rest ih =>
    intro crc acc
    have step : ∃ (crc2 : List (String × Option String)) (tr2 : List ApiCall),
        countConvInfo tr2 ≤ 1 ∧
        mentions_loop w uc (msg :: rest) crc acc =
          (match (alookup crc2 msg.channel).join with
           | some last_read =>
             if (last_read != "") && pyStrLt last_read msg.ts then
               if 10 ≤ (acc ++ [mkMention uc msg]).length then
                 (acc ++ [mkMention uc msg], tr2)
               else
                 ((mentions_loop w uc rest crc2 (acc ++ [mkMention uc msg])).1,
                  tr2 ++ (mentions_loop w uc rest crc2 (acc ++ [mkMention uc msg])).2)
             else
               ((mentions_loop w uc rest crc2 acc).1,
                tr2 ++ (mentions_loop w uc rest crc2 acc).2)
           | none =>
             ((mentions_loop w uc rest crc2 acc).1,
              tr2 ++ (mentions_loop w uc rest crc2 acc).2)) := by
      cases hlk : alookup crc msg.channel with
      | some v =>
        refine ⟨crc, [], by simp [countConvInfo], ?_⟩
        simp only [mentions_loop, hlk]
      | none =>
        cases hinfo : w.conv_info msg.channel with
        | ok info =>
          refine ⟨aset crc msg.channel info.last_read, [ApiCall.conv_info msg.channel],
            by simp [countConvInfo], ?_⟩
          simp only [mentions_loop, hlk, hinfo]
        | error e =>
          refine ⟨aset crc msg.channel none, [ApiCall.conv_info msg.channel],
            by simp [countConvInfo], ?_⟩
          simp only [mentions_loop, hlk, hinfo]
    obtain ⟨crc2, tr2, htr2, heq⟩ := step
    rw [heq]
    cases hj : (alookup crc2 msg.channel).join with
    | none =>
      dsimp only
      rw [countConvInfo_append]
      have := ih crc2 acc
      simp only [List.length_cons]
      omega
    | some last_read =>
      dsimp only
      by_cases hq : ((last_read != "") && pyStrLt last_read msg.ts) = true
      · rw [if_pos hq]
        by_cases hlen : 10 ≤ (acc ++ [mkMention uc msg]).length
        · rw [if_pos hlen]
          simp only [List.length_cons]
          omega
        · rw [if_neg hlen]
          dsimp only
          rw [countConvInfo_append]
          have := ih crc2 (acc ++ [mkMention uc msg])
          simp only [List.length_cons]
          omega
      · rw [if_neg hq]
        dsimp only
        rw [countConvInfo_append]
        have := ih crc2 acc
        simp only [List.length_cons]
        omega

theorem countConvInfo_mentions_phase (w : UnreadWorld) (uc : List (String × SlackUser)) :
    countConvInfo (mentions_phase w uc).2 ≤ searchHitCount w := by
  unfold mentions_phase searchHitCount
  cases ha : w.auth_user_id with
  | error e => simp [countConvInfo]
  | ok uid? =>
    cases uid? with
    | none => simp [countConvInfo]
    | some uid =>
      dsimp only
      by_cases hu : uid == ""
      · rw [if_pos hu]
        simp [countConvInfo]
      · rw [if_neg hu]
        cases hs : w.search with
        | error e => simp [countConvInfo]
        | ok msgs =>
          dsimp only
          by_cases hau : (mention_authors_of msgs).isEmpty = true
          · rw [if_pos hau]
            have := countConvInfo_mentions_loop w uc msgs [] []
            have htr : countConvInfo
                (ApiCall.auth_test :: ApiCall.search_call ("<@" ++ uid ++ ">") ::
                  (mentions_loop w uc msgs [] []).2) =
                countConvInfo (mentions_loop w uc msgs [] []).2 := by
              simp [countConvInfo]
            rw [htr]
            exact this
          · rw [if_neg hau]
            by_cases hp : w.prefetch_ok = true
            · rw [if_pos hp]
              have := countConvInfo_mentions_loop w
                (prefetch_users uc w.user_directory (mention_authors_of msgs)) msgs [] []
              have htr : ∀ (tl : List ApiCall),
                  countConvInfo (ApiCall.auth_test ::
                    ApiCall.search_call ("<@" ++ uid ++ ">") ::
                    ApiCall.prefetch (mention_authors_of msgs) :: tl) =
                    countConvInfo tl := by
                intro tl
                simp [countConvInfo]
              rw [htr]
              exact this
            · rw [if_neg hp]
              simp [countConvInfo]

theorem countConvInfo_dm_phase (w : UnreadWorld) (mm mc md : Nat) :
    countConvInfo (dm_phase w mm mc md).2 ≤ md := by
  unfold dm_phase
  cases hdl : w.dm_list with
  | error e => simp [countConvInfo]
  | ok dm_conversations =>
    dsimp only
    have hprobe : countConvInfo
        (probe_all (fun conv => check_dm_unread w conv.id)
          (dm_conversations.take md)).2 ≤ md := by
      rw [countConvInfo_probe_all _ (fun c => countConvInfo_check_dm w c.id),
        List.length_take]
      exact Nat.min_le_left _ _
    by_cases hids : (collect_dm_user_ids
        (probe_all (fun conv => check_dm_unread w conv.id)
          (dm_conversations.take md)).1 []).isEmpty = true
    · rw [if_pos hids]
      dsimp only
      have : countConvInfo (ApiCall.list_convs "im,mpim" ::
          ((probe_all (fun conv => check_dm_unread w conv.id)
            (dm_conversations.take md)).2 ++ [] ++
           (dm_retained_loop w w.users_cache0 mm
             ((sortByCountDesc (probe_all (fun conv => check_dm_unread w conv.id)
               (dm_conversations.take md)).1).take mc)
             (collect_dm_user_ids (probe_all (fun conv => check_dm_unread w conv.id)
               (dm_conversations.take md)).1 [])).2.2)) ≤ md := by
        have h0 : ∀ (tl : List ApiCall),
            countConvInfo (ApiCall.list_convs "im,mpim" :: tl) = countConvInfo tl := by
          intro tl; simp [countConvInfo]
        rw [h0, countConvInfo_append, countConvInfo_append,
          countConvInfo_dm_retained]
        simpa [countConvInfo] using hprobe
      exact this
    · rw [if_neg hids]
      by_cases hp : w.prefetch_ok = true
      · rw [if_pos hp]
        dsimp only
        have h0 : ∀ (tl : List ApiCall),
            countConvInfo (ApiCall.list_convs "im,mpim" :: tl) = countConvInfo tl := by
          intro tl; simp [countConvInfo]
        rw [h0, countConvInfo_append, countConvInfo_append,
          countConvInfo_dm_retained]
        have hpf : countConvInfo [ApiCall.prefetch
            (collect_dm_user_ids (probe_all (fun conv => check_dm_unread w conv.id)
              (dm_conversations.take md)).1 [])] = 0 := by
          simp [countConvInfo]
        rw [hpf]
        simpa using hprobe
      · rw [if_neg hp]
        dsimp only
        have h0 : ∀ (tl : List ApiCall),
            countConvInfo (ApiCall.list_convs "im,mpim" :: tl) = countConvInfo tl := by
          intro tl; simp [countConvInfo]
        rw [h0, countConvInfo_append]
        have hpf : countConvInfo [ApiCall.prefetch
            (collect_dm_user_ids (probe_all (fun conv => check_dm_unread w conv.id)
              (dm_conversations.take md)).1 [])] = 0 := by
          simp [countConvInfo]
        rw [hpf]
        simpa using hprobe

theorem countConvInfo_channel_phase (w : UnreadWorld) (mm rb : Nat) (ids : List String)
    (uc : List (String × SlackUser)) :
    countConvInfo (channel_phase w mm rb ids uc).2 ≤ max_channels_to_scan := by
  unfold channel_phase
  cases hcl : w.channel_list with
  | error e => simp [countConvInfo, max_channels_to_scan]
  | ok channel_conversations =>
    dsimp only
    have h0 : ∀ (tl : List ApiCall),
        countConvInfo (ApiCall.list_convs "public_channel,private_channel" :: tl) =
          countConvInfo tl := by
      intro tl; simp [countConvInfo]
    rw [h0, countConvInfo_append, countConvInfo_channel_retained,
      countConvInfo_probe_all _ (fun c => countConvInfo_check_channel w c.id)]
    rw [List.length_take]
    simp [max_channels_to_scan]

theorem countConvInfo_assemble (w : UnreadWorld) (workspace : String)
    (include_mentions : Bool) (dms chs : List UnreadEntry)
    (uc : List (String × SlackUser)) :
    countConvInfo (assemble_result w workspace include_mentions dms chs uc).2 ≤
      searchHitCount w := by
  unfold assemble_result
  cases include_mentions with
  | false => simp [countConvInfo]
  | true =>
    dsimp only
    exact countConvInfo_mentions_phase w uc

/-- C1 (amended): one reconciliation invocation issues at most
max_dms_to_scan + max_channels_to_scan + (number of mention-search hits)
detail-probe (conversations.info) calls: the DM probe loop probes up to
max_dms_to_scan listed DMs, the channel probe loop up to the hard cap of 50
channels, and the mention filter at most one probe per search hit.
max_conversations_to_check does not bound the probes — it caps how many probed
conversations get their unread history fetched and returned. -/
theorem c1_probe_call_bound (w : UnreadWorld) (workspace : String)
    (include_channels include_dms include_mentions : Bool) (mm mc md : Nat) :
    countConvInfo (get_unread_for_workspace w workspace include_channels include_dms
        include_mentions mm mc md).2 ≤
      md + max_channels_to_scan + searchHitCount w := by
  unfold get_unread_for_workspace
  have hdm : countConvInfo
      (if include_dms then dm_phase w mm mc md
       else (.ok ([], 0, [], w.users_cache0), [])).2 ≤ md := by
    cases include_dms with
    | false => simp [countConvInfo]
    | true => simpa using countConvInfo_dm_phase w mm mc md
  generalize hdmr : (if include_dms then dm_phase w mm mc md
      else (.ok ([], 0, [], w.users_cache0), [])) = dmr
  rw [hdmr] at hdm
  obtain ⟨dmr1, dmr2⟩ := dmr
  have hdm2 : countConvInfo dmr2 ≤ md := hdm
  cases dmr1 with
  | error e =>
    show countConvInfo dmr2 ≤ md + max_channels_to_scan + searchHitCount w
    omega
  | ok t =>
    obtain ⟨uds, cc, ids1, cache1⟩ := t
    dsimp only
    have hch : countConvInfo
        (if include_channels && decide (0 < mc - cc) then
           channel_phase w mm (mc - cc) ids1 cache1
         else (.ok ([], ids1), [])).2 ≤ max_channels_to_scan := by
      by_cases hc : (include_channels && decide (0 < mc - cc)) = true
      · rw [if_pos hc]
        exact countConvInfo_channel_phase w mm (mc - cc) ids1 cache1
      · rw [if_neg hc]
        simp [countConvInfo]
    generalize hchr : (if include_channels && decide (0 < mc - cc) then
        channel_phase w mm (mc - cc) ids1 cache1
      else (.ok ([], ids1), [])) = chr
    rw [hchr] at hch
    obtain ⟨chr1, chr2⟩ := chr
    have hch2 : countConvInfo chr2 ≤ max_channels_to_scan := hch
    cases chr1 with
    | error e =>
      show countConvInfo (dmr2 ++ chr2) ≤ md + max_channels_to_scan + searchHitCount w
      rw [countConvInfo_append]
      omega
    | ok t2 =>
      obtain ⟨uchs, ids2⟩ := t2
      dsimp only
      by_cases hids : ids2.isEmpty = true
      · rw [if_pos hids]
        dsimp only
        rw [countConvInfo_append, countConvInfo_append]
        have := countConvInfo_assemble w workspace include_mentions uds uchs cache1
        omega
      · rw [if_neg hids]
        by_cases hp : w.prefetch_ok = true
        · rw [if_pos hp]
          dsimp only
          rw [countConvInfo_append, countConvInfo_append]
          have ha := countConvInfo_assemble w workspace include_mentions uds uchs
            (prefetch_users cache1 w.user_directory ids2)
          have hpf : ∀ (tl : List ApiCall),
              countConvInfo (ApiCall.prefetch ids2 :: tl) = countConvInfo tl := by
            intro tl
            simp [countConvInfo]
          rw [hpf]
          omega
        · rw [if_neg hp]
          dsimp only
          rw [countConvInfo_append, countConvInfo_append]
          have hpf : countConvInfo [ApiCall.prefetch ids2] = 0 := by
            simp [countConvInfo]
          rw [hpf]
          omega

/-! ### Theorems: unread determination priority (C3) -/

/-- C3 counterexample: a probed plain channel (not a multi-party DM) with no
count fields, a real watermark and a newer newest message is reported unread by
check_channel_unread with the window length as count, while the claim's rule —
whose watermark fallback applies to multi-party direct messages specifically —
reports it not unread. -/
theorem c3_counterexample :
    (check_channel_unread c3World "C1").1 = some ({ c3Conv with id := "C1" }, 1) ∧
    claim_unread_rule { c3Conv with id := "C1" } (some c3Msg) [c3Msg] = none := by
  constructor
  · rfl
  · rfl

/-- C3 (amended): for every probed conversation, unread determination checks
the displayed unread count first, then the raw unread count. In the DM probe
the watermark fallback applies to multi-party direct messages specifically:
a non-MPIM (or watermark-less) DM-kind conversation without positive counts is
not unread; an MPIM with a truthy watermark is unread exactly when the single
newest message's token strictly exceeds it, with the bounded 10-message window
after the watermark providing the count. In the channel probe the same
fallback applies to every channel with a truthy watermark (not only MPIMs) and
additionally requires the fetched window to be non-empty. -/
theorem c3_unread_priority :
    ∀ (w : UnreadWorld) (cid : String) (detailed : SlackConversation),
      w.conv_info cid = .ok detailed →
      (posCount detailed.unread_count_display = true →
        (check_dm_unread w cid).1 = some (detailed, detailed.unread_count_display.getD 0) ∧
        (check_channel_unread w cid).1 =
          some (detailed, detailed.unread_count_display.getD 0)) ∧
      (posCount detailed.unread_count_display = false →
        posCount detailed.unread_count = true →
        (check_dm_unread w cid).1 = some (detailed, detailed.unread_count.getD 0) ∧
        (check_channel_unread w cid).1 = some (detailed, detailed.unread_count.getD 0)) ∧
      (posCount detailed.unread_count_display = false →
        posCount detailed.unread_count = false →
        (detailed.is_mpim = false ∨ strTruthy detailed.last_read = false) →
        (check_dm_unread w cid).1 = none) ∧
      (posCount detailed.unread_count_display = false →
        posCount detailed.unread_count = false →
        detailed.is_mpim = true → strTruthy detailed.last_read = true →
        ∀ (m : SlackMessage) (ms win : List SlackMessage),
          w.history cid none 1 = .ok (m :: ms) →
          pyStrLt (detailed.last_read.getD "") m.ts = true →
          w.history cid (some (detailed.last_read.getD "")) 10 = .ok win →
          (check_dm_unread w cid).1 = some (detailed, win.length)) ∧
      (posCount detailed.unread_count_display = false →
        posCount detailed.unread_count = false →
        detailed.is_mpim = true → strTruthy detailed.last_read = true →
        ∀ (m : SlackMessage) (ms : List SlackMessage),
          w.history cid none 1 = .ok (m :: ms) →
          pyStrLt (detailed.last_read.getD "") m.ts = false →
          (check_dm_unread w cid).1 = none) ∧
      (posCount detailed.unread_count_display = false →
        posCount detailed.unread_count = false →
        strTruthy detailed.last_read = true →
        ∀ (m : SlackMessage) (ms win : List SlackMessage),
          w.history cid none 1 = .ok (m :: ms) →
          pyStrLt (detailed.last_read.getD "") m.ts = true →
          w.history cid (some (detailed.last_read.getD "")) 10 = .ok win →
          win ≠ [] →
          (check_channel_unread w cid).1 = some (detailed, win.length)) ∧
      (posCount detailed.unread_count_display = false →
        posCount detailed.unread_count = false →
        strTruthy detailed.last_read = true →
        ∀ (m : SlackMessage) (ms : List SlackMessage),
          w.history cid none 1 = .ok (m :: ms) →
          pyStrLt (detailed.last_read.getD "") m.ts = true →
          w.history cid (some (detailed.last_read.getD "")) 10 = .ok [] →
          (check_channel_unread w cid).1 = none) ∧
      (posCount detailed.unread_count_display = false →
        posCount detailed.unread_count = false →
        strTruthy detailed.last_read = false →
        (check_channel_unread w cid).1 = none) := by
  intro w cid detailed hci
  refine ⟨?_, ?_, ?_, ?_, ?_, ?_, ?_, ?_⟩
  · intro h1
    constructor
    · simp only [check_dm_unread, hci]
      rw [if_pos h1]
    · simp only [check_channel_unread, hci]
      rw [if_pos h1]
  · intro h1 h2
    constructor
    · simp only [check_dm_unread, hci]
      rw [if_neg (by simp [h1]), if_pos h2]
    · simp only [check_channel_unread, hci]
      rw [if_neg (by simp [h1]), if_pos h2]
  · intro h1 h2 h3
    simp only [check_dm_unread, hci]
    rw [if_neg (by simp [h1]), if_neg (by simp [h2]), if_neg]
    rcases h3 with h | h <;> simp [h]
  · intro h1 h2 hmp hlr m ms win hh1 hts hh2
    simp only [check_dm_unread, hci]
    rw [if_neg (by simp [h1]), if_neg (by simp [h2]), if_pos (by simp [hmp, hlr])]
    rw [hh1]
    dsimp only
    rw [if_pos hts, hh2]
  · intro h1 h2 hmp hlr m ms hh1 hts
    simp only [check_dm_unread, hci]
    rw [if_neg (by simp [h1]), if_neg (by simp [h2]), if_pos (by simp [hmp, hlr])]
    rw [hh1]
    dsimp only
    rw [if_neg (by simp [hts])]
  · intro h1 h2 hlr m ms win hh1 hts hh2 hwin
    simp only [check_channel_unread, hci]
    rw [if_neg (by simp [h1]), if_neg (by simp [h2]), if_pos hlr]
    rw [hh1]
    dsimp only
    rw [if_pos hts, hh2]
    dsimp only
    rw [if_neg (by simpa [List.isEmpty_iff] using hwin)]
  · intro h1 h2 hlr m ms hh1 hts hh2
    simp only [check_channel_unread, hci]
    rw [if_neg (by simp [h1]), if_neg (by simp [h2]), if_pos hlr]
    rw [hh1]
    dsimp only
    rw [if_pos hts, hh2]
    rfl
  · intro h1 h2 hlr
    simp only [check_channel_unread, hci]
    rw [if_neg (by simp [h1]), if_neg (by simp [h2]), if_neg (by simp [hlr])]

/-- Witness for C3 at a concrete DM probe carrying a positive displayed count. -/
theorem c3_unread_priority_witness :
    (check_dm_unread c3aWorld "D1").1 =
      some ({ blankConv with id := "D1", is_im := true, unread_count_display := some 3 },
            3) := by
  have h := (c3_unread_priority c3aWorld "D1"
    { blankConv with id := "D1", is_im := true, unread_count_display := some 3 }
    rfl).1 (by decide)
  simpa using h.1

/-! ### Theorems: mention filtering (C5) -/

theorem mentions_loop_law (w : UnreadWorld) (uc : List (String × SlackUser)) :
    ∀ (msgs : List SlackMessage) (crc : List (String × Option String))
      (acc : List MentionEntry),
      (∀ ch v, alookup crc ch = some v → v = cached_last_read w ch) →
      acc.length < 10 →
      (mentions_loop w uc msgs crc acc).1 =
        acc ++ ((msgs.filter (mention_qualifies w)).take (10 - acc.length)).map
          (mkMention uc) := by
  intro msgs
  induction msgs with
  | nil => intro crc acc _ _; simp [mentions_loop]
  | cons msg rest ih =>
    intro crc acc hinv hlen
    have hstep : ∃ (crc2 : List (String × Option String)),
        (∀ ch v, alookup crc2 ch = some v → v = cached_last_read w ch) ∧
        alookup crc2 msg.channel = some (cached_last_read w msg.channel) ∧
        (mentions_loop w uc (msg :: rest) crc acc).1 =
          (match (alookup crc2 msg.channel).join with
           | some last_read =>
             if (last_read != "") && pyStrLt last_read msg.ts then
               if 10 ≤ (acc ++ [mkMention uc msg]).length then acc ++ [mkMention uc msg]
               else (mentions_loop w uc rest crc2 (acc ++ [mkMention uc msg])).1
             else (mentions_loop w uc rest crc2 acc).1
           | none => (mentions_loop w uc rest crc2 acc).1) := by
      cases hlk : alookup crc msg.channel with
      | some v =>
        refine ⟨crc, hinv, ?_, ?_⟩
        · rw [hlk, hinv msg.channel v hlk]
        · simp only [mentions_loop, hlk, Option.join, Option.some_bind, id]
          cases v with
          | none => rfl
          | some lr =>
            dsimp only
            split_ifs <;> rfl
      | none =>
        cases hinfo : w.conv_info msg.channel with
        | ok info =>
          refine ⟨aset crc msg.channel info.last_read, ?_, ?_, ?_⟩
          · intro ch v hv
            by_cases he : msg.channel = ch
            · subst he
              rw [alookup_aset_self] at hv
              simp only [Option.some.injEq] at hv
              subst hv
              simp [cached_last_read, hinfo]
            · rw [alookup_aset_ne _ _ _ _ he] at hv
              exact hinv ch v hv
          · rw [alookup_aset_self]
            simp [cached_last_read, hinfo]
          · simp only [mentions_loop, hlk, hinfo, alookup_aset_self, Option.join,
              Option.some_bind, id]
            cases info.last_read with
            | none => rfl
            | some lr =>
            dsimp only
            split_ifs <;> rfl
        | error e =>
          refine ⟨aset crc msg.channel none, ?_, ?_, ?_⟩
          · intro ch v hv
            by_cases he : msg.channel = ch
            · subst he
              rw [alookup_aset_self] at hv
              simp only [Option.some.injEq] at hv
              subst hv
              simp [cached_last_read, hinfo]
            · rw [alookup_aset_ne _ _ _ _ he] at hv
              exact hinv ch v hv
          · rw [alookup_aset_self]
            simp [cached_last_read, hinfo]
          · simp only [mentions_loop, hlk, hinfo, alookup_aset_self, Option.join,
              Option.some_bind, id]
    obtain ⟨crc2, hinv2, hch, heq⟩ := hstep
    rw [heq, hch]
    simp only [Option.join, Option.some_bind, id]
    cases hcv : cached_last_read w msg.channel with
    | none =>
      dsimp only
      have hq : mention_qualifies w msg = false := by
        simp [mention_qualifies, hcv]
      rw [ih crc2 acc hinv2 hlen]
      simp [List.filter_cons, hq]
    | some lr =>
      dsimp only
      by_cases hqb : ((lr != "") && pyStrLt lr msg.ts) = true
      · have hq : mention_qualifies w msg = true := by
          simp only [mention_qualifies, hcv]
          exact hqb
        rw [if_pos hqb]
        by_cases hstop : 10 ≤ (acc ++ [mkMention uc msg]).length
        · rw [if_pos hstop]
          have hacc : acc.length + 1 = 10 := by
            simp only [List.length_append, List.length_singleton] at hstop
            omega
          have htake : 10 - acc.length = 1 := by omega
          rw [List.filter_cons_of_pos (by simpa using hq), htake]
          simp
        · rw [if_neg hstop]
          have hacc : acc.length + 1 < 10 := by
            simp only [List.length_append, List.length_singleton] at hstop
            omega
          rw [ih crc2 (acc ++ [mkMention uc msg]) hinv2 (by simpa using hacc)]
          rw [List.filter_cons_of_pos (by simpa using hq)]
          have htake : 10 - acc.length = (10 - (acc ++ [mkMention uc msg]).length) + 1 := by
            simp only [List.length_append, List.length_singleton]
            omega
          rw [htake, List.take_succ_cons, List.map_cons, List.append_assoc]
          simp
      · have hq : mention_qualifies w msg = false := by
          simp only [mention_qualifies, hcv]
          simpa using hqb
        rw [if_neg hqb]
        rw [ih crc2 acc hinv2 hlen]
        rw [List.filter_cons_of_neg (by simpa using hq)]

theorem mentions_phase_failure (w : UnreadWorld) (uc : List (String × SlackUser))
    (h : (∃ e, w.auth_user_id = .error e) ∨ (∃ e, w.search = .error e)) :
    (mentions_phase w uc).1 = [] := by
  unfold mentions_phase
  cases ha : w.auth_user_id with
  | error e => rfl
  | ok uid? =>
    cases uid? with
    | none => rfl
    | some uid =>
      dsimp only
      by_cases hu : (uid == "") = true
      · rw [if_pos hu]
      · rw [if_neg hu]
        cases hs : w.search with
        | error e => rfl
        | ok msgs =>
          exfalso
          rcases h with ⟨e, he⟩ | ⟨e, he⟩
          · rw [ha] at he
            exact absurd he (by simp)
          · rw [hs] at he
            exact absurd he (by simp)

theorem dm_phase_ok (w : UnreadWorld) (mm mc md : Nat)
    (l : List SlackConversation) (hdl : w.dm_list = .ok l)
    (hp : w.prefetch_ok = true) :
    ∃ uds cc ids cache, (dm_phase w mm mc md).1 = .ok (uds, cc, ids, cache) := by
  unfold dm_phase
  rw [hdl]
  dsimp only
  by_cases hids : (collect_dm_user_ids
      (probe_all (fun conv => check_dm_unread w conv.id) (l.take md)).1 []).isEmpty = true
  · rw [if_pos hids]
    exact ⟨_, _, _, _, rfl⟩
  · rw [if_neg hids, if_pos hp]
    exact ⟨_, _, _, _, rfl⟩

theorem channel_phase_ok (w : UnreadWorld) (mm rb : Nat) (ids : List String)
    (uc : List (String × SlackUser)) (l : List SlackConversation)
    (hcl : w.channel_list = .ok l) :
    ∃ uchs ids2, (channel_phase w mm rb ids uc).1 = .ok (uchs, ids2) := by
  unfold channel_phase
  rw [hcl]
  exact ⟨_, _, rfl⟩

theorem assemble_result_mentions_failure (w : UnreadWorld) (ws : String)
    (im : Bool) (dms chs : List UnreadEntry) (uc : List (String × SlackUser))
    (h : (∃ e, w.auth_user_id = .error e) ∨ (∃ e, w.search = .error e)) :
    (assemble_result w ws im dms chs uc).1.mentions = [] ∧
    (assemble_result w ws im dms chs uc).1.total_mentions = 0 := by
  cases im with
  | false => exact ⟨rfl, rfl⟩
  | true =>
    have hm := mentions_phase_failure w uc h
    constructor
    · exact hm
    · show (mentions_phase w uc).1.length = 0
      rw [hm]
      rfl

/-- C5: the mention-discovery step. (i) When auth, search and author prefetch
all succeed, the returned mentions are exactly the search hits whose timestamp
token strictly exceeds the hit's conversation's cached watermark (resolved
once per conversation through the per-call cache; a hit whose conversation has
no truthy watermark, or whose info probe fails, is excluded), in search order,
capped at the first 10 qualifying hits. (ii) A failure inside mention
discovery (auth.test or the search raising) leaves the overall reconciliation
result successful, with the mentions contribution empty and the mention total
zero. -/
theorem c5_mentions :
    (∀ (w : UnreadWorld) (uc : List (String × SlackUser)) (uid : String)
       (msgs : List SlackMessage),
       w.auth_user_id = .ok (some uid) → (uid == "") = false → w.search = .ok msgs →
       w.prefetch_ok = true →
       (mentions_phase w uc).1 =
         ((msgs.filter (mention_qualifies w)).take 10).map
           (mkMention
             (if (mention_authors_of msgs).isEmpty = true then uc
              else prefetch_users uc w.user_directory (mention_authors_of msgs)))) ∧
    (∀ (w : UnreadWorld) (workspace : String)
       (include_channels include_dms include_mentions : Bool) (mm mc md : Nat)
       (l1 l2 : List SlackConversation),
       w.dm_list = .ok l1 → w.channel_list = .ok l2 → w.prefetch_ok = true →
       ((∃ e, w.auth_user_id = .error e) ∨ (∃ e, w.search = .error e)) →
       ∃ r, (get_unread_for_workspace w workspace include_channels include_dms
           include_mentions mm mc md).1 = .ok r ∧
         r.mentions = [] ∧ r.total_mentions = 0) := by
  constructor
  · intro w uc uid msgs ha hu hs hp
    unfold mentions_phase
    rw [ha]
    dsimp only
    rw [if_neg (by simp [hu])]
    rw [hs]
    dsimp only
    by_cases hau : (mention_authors_of msgs).isEmpty = true
    · rw [if_pos hau]
      dsimp only
      rw [mentions_loop_law w uc msgs [] []
        (by intro ch v hv; simp [alookup] at hv) (by simp)]
      rw [if_pos hau]
      simp
    · rw [if_neg hau, if_pos hp]
      dsimp only
      rw [mentions_loop_law w (prefetch_users uc w.user_directory (mention_authors_of msgs))
        msgs [] [] (by intro ch v hv; simp [alookup] at hv) (by simp)]
      rw [if_neg hau]
      simp
  · intro w workspace ic idm im mm mc md l1 l2 hdl hcl hp hfail
    unfold get_unread_for_workspace
    have hdmok : ∃ a b c d, (if idm then dm_phase w mm mc md
        else (.ok ([], 0, [], w.users_cache0), [])).1 = .ok (a, b, c, d) := by
      cases idm with
      | false => exact ⟨[], 0, [], w.users_cache0, rfl⟩
      | true =>
        obtain ⟨a, b, c, d, h⟩ := dm_phase_ok w mm mc md l1 hdl hp
        exact ⟨a, b, c, d, by simpa using h⟩
    generalize hdmr : (if idm then dm_phase w mm mc md
        else (.ok ([], 0, [], w.users_cache0), [])) = dmr
    rw [hdmr] at hdmok
    obtain ⟨dmr1, dmr2⟩ := dmr
    obtain ⟨uds, cc, ids1, cache1, ht⟩ := hdmok
    have ht' : dmr1 = .ok (uds, cc, ids1, cache1) := ht
    subst ht'
    dsimp only
    have hchok : ∃ a b, (if ic && decide (0 < mc - cc) then
        channel_phase w mm (mc - cc) ids1 cache1
      else (.ok ([], ids1), [])).1 = .ok (a, b) := by
      by_cases hc : (ic && decide (0 < mc - cc)) = true
      · rw [if_pos hc]
        exact channel_phase_ok w mm (mc - cc) ids1 cache1 l2 hcl
      · rw [if_neg hc]
        exact ⟨[], ids1, rfl⟩
    generalize hchr : (if ic && decide (0 < mc - cc) then
        channel_phase w mm (mc - cc) ids1 cache1
      else (.ok ([], ids1), [])) = chr
    rw [hchr] at hchok
    obtain ⟨chr1, chr2⟩ := chr
    obtain ⟨uchs, ids2, ht2⟩ := hchok
    have ht2' : chr1 = .ok (uchs, ids2) := ht2
    subst ht2'
    dsimp only
    by_cases hids : ids2.isEmpty = true
    · rw [if_pos hids]
      dsimp only
      exact ⟨(assemble_result w workspace im uds uchs cache1).1, rfl,
        (assemble_result_mentions_failure w workspace im uds uchs cache1 hfail).1,
        (assemble_result_mentions_failure w workspace im uds uchs cache1 hfail).2⟩
    · rw [if_neg hids, if_pos hp]
      dsimp only
      exact ⟨(assemble_result w workspace im uds uchs
          (prefetch_users cache1 w.user_directory ids2)).1, rfl,
        (assemble_result_mentions_failure w workspace im uds uchs
          (prefetch_users cache1 w.user_directory ids2) hfail).1,
        (assemble_result_mentions_failure w workspace im uds uchs
          (prefetch_users cache1 w.user_directory ids2) hfail).2⟩

/-- Witness for C5 at the five-hit fixture: two hits are older than their
channel's watermark, so exactly three mentions are returned. -/
theorem c5_mentions_witness :
    (mentions_phase c5World []).1.length = 3 := by
  have h := c5_mentions.1 c5World [] "U9" c5Hits rfl (by decide) rfl rfl
  rw [h]
  decide
